import Mathlib

/-!
Verification of the fantasy-landscape command pipeline
(CommandDispatcher, CommandQueue, CodeEvaluator, EnvironmentManager,
NaturalLanguageRouter, NaturalLanguageProcessor).

Each JavaScript component is shallowly embedded as executable Lean
definitions: pure functions become Lean functions, stateful methods become
explicit state-passing functions, asynchronous animation callbacks become
explicit completion operations on the state, and the host primitives the
code calls out to (JSON.parse, Math.random, snippet evaluation) are either
implemented (JSON) or threaded as explicit parameters (randomness, snippet
behaviour).  Numbers that the claims inspect are exact (Nat / Int / Rat).
-/

/-! ## String helpers (JS primitives used by the code)

`String.prototype.toLowerCase`, `String.prototype.includes`,
`String.prototype.trim` and `String.prototype.split(":")` restricted to
the ASCII inputs the router and dispatcher handle. -/

/-- JS `s.toLowerCase()` on ASCII strings: lower-case every character. -/
def jsToLowerCase (s : String) : String := String.mk (s.data.map Char.toLower)

/-- Does `needle` occur as a contiguous sublist of `hay`?  This is JS
`hay.includes(needle)` on the character level. -/
def containsList (needle : List Char) : List Char → Bool
  | [] => needle.isEmpty
  | c :: rest => needle.isPrefixOf (c :: rest) || containsList needle rest

/-- JS `s.includes(sub)`. -/
def jsIncludes (s sub : String) : Bool := containsList sub.data s.data

/-- JS `s.trim()`: drop whitespace from both ends (character-list form). -/
def jsTrimList (l : List Char) : List Char :=
  ((l.dropWhile Char.isWhitespace).reverse.dropWhile Char.isWhitespace).reverse

/-- JS `s.trim()`. -/
def jsTrim (s : String) : String := String.mk (jsTrimList s.data)

/-- JS `s.split(":")` on the character level: splits at every colon,
never returns an empty list (splitting the empty string yields `[[]]`,
exactly as in JS where `"".split(":")` is `[""]`). -/
def splitOnColon : List Char → List (List Char)
  | [] => [[]]
  | c :: cs =>
    if c = ':' then [] :: splitOnColon cs
    else
      match splitOnColon cs with
      | [] => [[c]]
      | h :: t => (c :: h) :: t

/-! ## CommandDispatcher.parseCommandInput (src/js/CommandDispatcher.js 250-260)

```js
const parts = commandInput.split(':');
const commandName = parts[0].trim();
const parameter = parts.length > 1 ? parts[1].trim() : null;
return { commandName, parameter };
```
(The non-string guard at the top of the JS function is outside the
embedding: command inputs are strings here.) -/

structure ParsedCommand where
  commandName : String
  parameter : Option String
deriving DecidableEq, Repr

def parseCommandInput (commandInput : String) : ParsedCommand :=
  let parts := splitOnColon commandInput.data
  match parts with
  | [] => ⟨"", none⟩
  | [n] => ⟨String.mk (jsTrimList n), none⟩
  | n :: p :: _ => ⟨String.mk (jsTrimList n), some (String.mk (jsTrimList p))⟩

/-! ## NaturalLanguageRouter.determineRequestType (router source 171-201)

```js
isSkyscraperRequest(lowerInput) {
  return (
    (lowerInput.includes('skyscraper') || lowerInput.includes('skyscrapers')) &&
    (lowerInput.includes('tree') || lowerInput.includes('trees')) &&
    (lowerInput.includes('replace') || lowerInput.includes('transform') ||
     lowerInput.includes('change') || lowerInput.includes('turn'))
  );
}
determineRequestType(userInput) {
  const lowerInput = userInput.toLowerCase();
  if (this.isSkyscraperRequest(lowerInput)) {
    return { type: 'code_generator', subtype: 'skyscraper' };
  }
  return { type: 'simple_parameter', subtype: 'environment' };
}
``` -/

def isSkyscraperRequest (lowerInput : String) : Bool :=
  (jsIncludes lowerInput "skyscraper" || jsIncludes lowerInput "skyscrapers") &&
  (jsIncludes lowerInput "tree" || jsIncludes lowerInput "trees") &&
  (jsIncludes lowerInput "replace" || jsIncludes lowerInput "transform" ||
   jsIncludes lowerInput "change" || jsIncludes lowerInput "turn")

structure RequestType where
  type : String
  subtype : String
deriving DecidableEq, Repr

def determineRequestType (userInput : String) : RequestType :=
  if isSkyscraperRequest (jsToLowerCase userInput) then
    ⟨"code_generator", "skyscraper"⟩
  else
    ⟨"simple_parameter", "environment"⟩

/-! ## CodeEvaluator.createMeshFromSnippet (src/js/utils/CodeEvaluator.js 49-90)

Snippet execution happens through the host's `new Function` evaluator; its
observable behaviour on one call is either an exception or a produced JS
value.  The embedding quantifies over that behaviour with `SnippetOutcome`.
Renderable objects are `Object3DData` records (geometry, material color,
vertical position); `JSBoxGeometry w h d` embeds `new THREE.BoxGeometry`. -/

structure Vec3 where
  x : Rat
  y : Rat
  z : Rat
deriving DecidableEq, Repr

inductive JSGeometry
  /-- `new THREE.BoxGeometry(w, h, d)` -/
  | boxGeometry (w h d : Rat)
  /-- any other geometry, carrying its bounding-box size -/
  | customGeometry (size : Vec3)
deriving DecidableEq, Repr

/-- A THREE.Object3D as far as the pipeline observes it: its geometry,
its material color and its `position.y`. -/
structure Object3DData where
  geometry : JSGeometry
  color : Nat
  posY : Rat
deriving DecidableEq, Repr

/-- A JS value a snippet may produce. -/
inductive JsValue
  | undefinedValue
  | object3D (o : Object3DData)
  | otherValue (tag : String)
deriving DecidableEq, Repr

/-- The observable behaviour of evaluating a snippet once: the generated
function either throws or returns a value.  (A snippet that fails to even
compile is a throw at construction time; both land in a catch block.) -/
inductive SnippetOutcome
  | throws (msg : String)
  | returns (v : JsValue)
deriving DecidableEq, Repr

/-- The fixed fallback mesh built in every failure branch of
`createMeshFromSnippet`:
```js
const geometry = new THREE.BoxGeometry(3, 30, 3);
const material = new THREE.MeshStandardMaterial({ color: 0x8ecae6 });
const defaultMesh = new THREE.Mesh(geometry, material);
defaultMesh.position.y = 15;
``` -/
def defaultMesh : Object3DData :=
  { geometry := JSGeometry.boxGeometry 3 30 3, color := 0x8ecae6, posY := 15 }

/-- `CodeEvaluator.createMeshFromSnippet`: the inner catch converts a throw
into the fallback mesh; the `instanceof THREE.Object3D` check converts any
non-renderable produced value into the fallback mesh; the outer catch
converts construction failures into the fallback mesh.  The result is a
renderable object in every case — the function never raises. -/
def createMeshFromSnippet (outcome : SnippetOutcome) : Object3DData :=
  match outcome with
  | SnippetOutcome.throws _ => defaultMesh
  | SnippetOutcome.returns (JsValue.object3D o) => o
  | SnippetOutcome.returns JsValue.undefinedValue => defaultMesh
  | SnippetOutcome.returns (JsValue.otherValue _) => defaultMesh

/-- An outcome that fails `createMeshFromSnippet`'s validation: the snippet
threw, or produced `undefined`, or produced a non-Object3D value. -/
def failsValidation (outcome : SnippetOutcome) : Bool :=
  match outcome with
  | SnippetOutcome.throws _ => true
  | SnippetOutcome.returns (JsValue.object3D _) => false
  | SnippetOutcome.returns JsValue.undefinedValue => true
  | SnippetOutcome.returns (JsValue.otherValue _) => true

/-! ## JSON values and the host JSON.parse

The router parses LLM response bodies with the host primitive
`JSON.parse`.  Modelled from the spec: "Parses the external response body
as JSON" — the host `JSON.parse` is not part of the repository, so it is
implemented here as a standard recursive-descent JSON reader (numbers
restricted to integers, escapes restricted to the single-character ones;
the claims only exercise strings and objects). -/

inductive Json
  | null
  | boolean (b : Bool)
  | number (n : Int)
  | str (s : String)
  | arr (elems : List Json)
  | obj (fields : List (String × Json))
deriving Repr

def lbrace : Char := Char.ofNat 123
def rbrace : Char := Char.ofNat 125
def backslashChar : Char := Char.ofNat 92
def dquote : Char := Char.ofNat 34

/-- JSON insignificant whitespace. -/
def skipWs (l : List Char) : List Char :=
  l.dropWhile (fun c => c = ' ' || c = Char.ofNat 9 || c = Char.ofNat 10 || c = Char.ofNat 13)

/-- Single-character JSON string escapes. -/
def unescapeChar (c : Char) : Option Char :=
  if c = dquote then some dquote
  else if c = backslashChar then some backslashChar
  else if c = '/' then some '/'
  else if c = 'n' then some (Char.ofNat 10)
  else if c = 't' then some (Char.ofNat 9)
  else if c = 'r' then some (Char.ofNat 13)
  else if c = 'b' then some (Char.ofNat 8)
  else if c = 'f' then some (Char.ofNat 12)
  else none

/-- Parse the body of a JSON string (the opening quote already consumed);
returns the content and the remainder after the closing quote. -/
def parseJsonStringBody (fuel : Nat) (l : List Char) : Option (List Char × List Char) :=
  match fuel, l with
  | 0, _ => none
  | _, [] => none
  | fuel + 1, c :: rest =>
    if c = dquote then some ([], rest)
    else if c = backslashChar then
      match rest with
      | [] => none
      | e :: rest2 =>
        match unescapeChar e with
        | none => none
        | some ec =>
          match parseJsonStringBody fuel rest2 with
          | none => none
          | some (s, r) => some (ec :: s, r)
    else
      match parseJsonStringBody fuel rest with
      | none => none
      | some (s, r) => some (c :: s, r)

/-- Digit-run parser carrying an accumulator (JSON integer literals). -/
def parseDigitsAcc (acc : Nat) : List Char → Nat × List Char
  | [] => (acc, [])
  | c :: rest =>
    if c.isDigit then parseDigitsAcc (acc * 10 + (c.toNat - 48)) rest
    else (acc, c :: rest)

/-- Parse a JSON integer (optional minus sign followed by digits). -/
def parseJsonInt (l : List Char) : Option (Int × List Char) :=
  match l with
  | [] => none
  | c :: rest =>
    if c = '-' then
      match rest with
      | d :: _ =>
        if d.isDigit then
          let (n, r) := parseDigitsAcc 0 rest
          some (-(n : Int), r)
        else none
      | [] => none
    else if c.isDigit then
      let (n, r) := parseDigitsAcc 0 l
      some ((n : Int), r)
    else none

mutual

/-- Recursive-descent JSON value reader (fuel-indexed). -/
def parseJsonValue : Nat → List Char → Option (Json × List Char)
  | 0, _ => none
  | fuel + 1, l =>
    match skipWs l with
    | [] => none
    | c :: rest =>
      if c = dquote then
        match parseJsonStringBody (fuel + 1) rest with
        | none => none
        | some (s, r) => some (Json.str (String.mk s), r)
      else if c = lbrace then
        match skipWs rest with
        | d :: rest2 =>
          if d = rbrace then some (Json.obj [], rest2)
          else
            match parseJsonObjectFields fuel (skipWs rest) with
            | none => none
            | some (fs, r) => some (Json.obj fs, r)
        | [] => none
      else if c = '[' then
        match skipWs rest with
        | d :: rest2 =>
          if d = ']' then some (Json.arr [], rest2)
          else
            match parseJsonArrayElems fuel (skipWs rest) with
            | none => none
            | some (es, r) => some (Json.arr es, r)
        | [] => none
      else if "true".data.isPrefixOf (c :: rest) then
        some (Json.boolean true, (c :: rest).drop 4)
      else if "false".data.isPrefixOf (c :: rest) then
        some (Json.boolean false, (c :: rest).drop 5)
      else if "null".data.isPrefixOf (c :: rest) then
        some (Json.null, (c :: rest).drop 4)
      else
        match parseJsonInt (c :: rest) with
        | none => none
        | some (n, r) => some (Json.number n, r)

/-- One-or-more comma-separated JSON values (after the opening bracket). -/
def parseJsonArrayElems : Nat → List Char → Option (List Json × List Char)
  | 0, _ => none
  | fuel + 1, l =>
    match parseJsonValue fuel l with
    | none => none
    | some (v, r) =>
      match skipWs r with
      | c :: rest =>
        if c = ',' then
          match parseJsonArrayElems fuel rest with
          | none => none
          | some (vs, r2) => some (v :: vs, r2)
        else if c = ']' then some ([v], rest)
        else none
      | [] => none

/-- One-or-more comma-separated `"key": value` pairs (after the opening
brace). -/
def parseJsonObjectFields : Nat → List Char → Option (List (String × Json) × List Char)
  | 0, _ => none
  | fuel + 1, l =>
    match skipWs l with
    | c :: rest =>
      if c = dquote then
        match parseJsonStringBody (fuel + 1) rest with
        | none => none
        | some (k, r) =>
          match skipWs r with
          | d :: r2 =>
            if d = ':' then
              match parseJsonValue fuel r2 with
              | none => none
              | some (v, r3) =>
                match skipWs r3 with
                | e :: r4 =>
                  if e = ',' then
                    match parseJsonObjectFields fuel r4 with
                    | none => none
                    | some (fs, r5) => some ((String.mk k, v) :: fs, r5)
                  else if e = rbrace then some ([(String.mk k, v)], r4)
                  else none
                | [] => none
            else none
          | [] => none
      else none
    | [] => none

end

/-- The host `JSON.parse`: parse one value and require only whitespace to
remain (trailing garbage is a parse error, as in JS). -/
def jsonParse (s : String) : Option Json :=
  match parseJsonValue (s.data.length + 1) s.data with
  | some (v, rest) => if (skipWs rest).isEmpty then some v else none
  | none => none

/-! ## The router's JSON-recovery regex (router source 508 / 558)

Both parsers attempt, after a failed direct parse,
```js
const jsonMatch = response.match(/\\{[\\s\\S]*\\}/);
```
As a JS regex literal, `\\` matches one literal backslash character, and
the character class `[\\s\\S]` contains exactly the three characters
backslash, `s`, `S`.  So the pattern is: a backslash, an opening brace, a
greedy run over `{backslash, 's', 'S'}`, a backslash, a closing brace.
`jsBuggyRegexFirstMatch` embeds that actual pattern (leftmost match,
greedy run).  `jsIntendedRegexFirstMatch` embeds the brace-span
extraction the surrounding code and the spec describe — modelled from the
spec: "extracting the first `{...}` brace-span via pattern match", i.e.
the regex `/{[\s\S]*}/` with single backslashes (first opening brace to
last closing brace). -/

def regexClassChar (c : Char) : Bool := c = backslashChar || c = 's' || c = 'S'

/-- Greedy tail of the actual pattern after the opening `\{`: the longest
run of class characters followed by `\}`.  Returns the run (the closing
`\}` is implicit). -/
def greedyClose : List Char → Option (List Char)
  | [] => none
  | c :: rest =>
    match (if regexClassChar c then (greedyClose rest).map (fun m => c :: m) else none) with
    | some m => some m
    | none =>
      match rest with
      | r :: _ => if c = backslashChar && r = rbrace then some [] else none
      | [] => none

/-- A match of the actual pattern anchored at the start of `l`. -/
def matchBuggyAt (l : List Char) : Option (List Char) :=
  match l with
  | b :: o :: t =>
    if b = backslashChar && o = lbrace then
      (greedyClose t).map (fun mid => b :: o :: (mid ++ [backslashChar, rbrace]))
    else none
  | _ => none

/-- `response.match(/\\{[\\s\\S]*\\}/)`: leftmost match of the actual
pattern, or `none`. -/
def jsBuggyRegexFirstMatch : List Char → Option (List Char)
  | [] => none
  | c :: rest =>
    match matchBuggyAt (c :: rest) with
    | some m => some m
    | none => jsBuggyRegexFirstMatch rest

/-- Greedy tail of the intended pattern after the opening brace: the
longest run of arbitrary characters followed by a closing brace. -/
def greedyCloseAny : List Char → Option (List Char)
  | [] => none
  | c :: rest =>
    match (greedyCloseAny rest).map (fun m => c :: m) with
    | some m => some m
    | none => if c = rbrace then some [] else none

/-- A match of the intended brace-span pattern anchored at the start. -/
def matchIntendedAt (l : List Char) : Option (List Char) :=
  match l with
  | o :: t =>
    if o = lbrace then (greedyCloseAny t).map (fun mid => o :: (mid ++ [rbrace]))
    else none
  | [] => none

/-- The spec's intended recovery `response.match(/{[\s\S]*}/)`: from the
first opening brace through the last closing brace. -/
def jsIntendedRegexFirstMatch : List Char → Option (List Char)
  | [] => none
  | c :: rest =>
    match matchIntendedAt (c :: rest) with
    | some m => some m
    | none => jsIntendedRegexFirstMatch rest

/-! ## Router response parsing (router source 491-532 and 541-595)

Errors are represented by which `throw new Error(...)` fires; the outer
catch only rewraps the message.  The `typeof parsedResponse !== 'object'`
check: in JS, `JSON.parse` yields `typeof 'object'` exactly for objects,
arrays and `null`. -/

inductive RouterParseError
  /-- "Empty response received from OpenAI" -/
  | emptyResponse
  /-- "Could not parse JSON from response: ..." (re-parse of the
  extracted span failed) -/
  | extractReparseFailed
  /-- "Response is not valid JSON and could not extract JSON: ..." -/
  | noJsonFound
  /-- "Invalid response format: not an object" -/
  | notAnObject
  /-- "Missing required field: javascript_code_snippet" -/
  | missingCodeSnippetField
deriving DecidableEq, Repr

def jsTypeofIsObject : Json → Bool
  | Json.obj _ => true
  | Json.arr _ => true
  | Json.null => true
  | _ => false

/-- `NaturalLanguageRouter.parseSimpleParameterResponse`. -/
def parseSimpleParameterResponse (response : String) :
    Except RouterParseError Json :=
  if response = "" then Except.error RouterParseError.emptyResponse
  else
    match jsonParse response with
    | some parsed =>
      if jsTypeofIsObject parsed then Except.ok parsed
      else Except.error RouterParseError.notAnObject
    | none =>
      match jsBuggyRegexFirstMatch response.data with
      | some m =>
        match jsonParse (String.mk m) with
        | some parsed =>
          if jsTypeofIsObject parsed then Except.ok parsed
          else Except.error RouterParseError.notAnObject
        | none => Except.error RouterParseError.extractReparseFailed
      | none => Except.error RouterParseError.noJsonFound

/-- JS property access `obj.name` on a parsed JSON object (`undefined`
when absent; `JSON.parse` keeps the last duplicate key, duplicates do not
occur in the claims). -/
def jsonGetField (fields : List (String × Json)) (name : String) : Option Json :=
  (fields.find? (fun kv => kv.fst = name)).map (fun kv => kv.snd)

/-- JS truthiness of a property-access result. -/
def jsonTruthy : Option Json → Bool
  | none => false
  | some Json.null => false
  | some (Json.boolean b) => b
  | some (Json.number n) => decide (n ≠ 0)
  | some (Json.str s) => decide (s ≠ "")
  | some (Json.arr _) => true
  | some (Json.obj _) => true

/-- The record `parseCodeGeneratorResponse` returns on the skyscraper
subtype. -/
structure SkyscraperParsed where
  javascriptCodeSnippet : Json
  comments : Json
deriving Repr

/-- `NaturalLanguageRouter.parseCodeGeneratorResponse` instantiated at the
one subtype the program uses (`'skyscraper'`): same parse-and-recover
front as `parseSimpleParameterResponse`, then the required-field check
`if (!parsedResponse.javascript_code_snippet) throw ...` and the
projection `{ javascriptCodeSnippet, comments: parsedResponse.comments || '' }`. -/
def parseCodeGeneratorResponse (response : String) :
    Except RouterParseError SkyscraperParsed :=
  let validated : Except RouterParseError Json :=
    if response = "" then Except.error RouterParseError.emptyResponse
    else
      match jsonParse response with
      | some parsed =>
        if jsTypeofIsObject parsed then Except.ok parsed
        else Except.error RouterParseError.notAnObject
      | none =>
        match jsBuggyRegexFirstMatch response.data with
        | some m =>
          match jsonParse (String.mk m) with
          | some parsed =>
            if jsTypeofIsObject parsed then Except.ok parsed
            else Except.error RouterParseError.notAnObject
          | none => Except.error RouterParseError.extractReparseFailed
        | none => Except.error RouterParseError.noJsonFound
  match validated with
  | Except.error e => Except.error e
  | Except.ok parsed =>
    let fields := match parsed with
      | Json.obj fs => fs
      | _ => []
    if jsonTruthy (jsonGetField fields "javascript_code_snippet") then
      Except.ok
        { javascriptCodeSnippet :=
            (jsonGetField fields "javascript_code_snippet").getD Json.null,
          comments :=
            if jsonTruthy (jsonGetField fields "comments") then
              (jsonGetField fields "comments").getD Json.null
            else Json.str "" }
    else Except.error RouterParseError.missingCodeSnippetField

/-! ## CommandQueue (src/js/CommandQueue.js)

The queue's state is its pending-command list and the `isExecuting` busy
flag.  `executeAll` is the `async` drain loop; its suspension points (the
cooperative `await this._delay(...)` sleeps) and its observable actions
are recorded in an event trace.  Handlers reached through
`commandDispatcher.executeCommand` mutate manager state, not the queue,
so dispatch is an event; `executeCommand` never throws (it has its own
catch-all), so the loop's catch branch is unreachable. -/

structure QueuedCommand where
  commandName : String
  params : List (String × String)
  delay : Int
deriving DecidableEq, Repr

structure CommandQueueState where
  queue : List QueuedCommand
  isExecuting : Bool
deriving DecidableEq, Repr

inductive QueueEvent
  /-- `this.commandDispatcher.executeCommand(command.commandName, command.params)` -/
  | dispatched (name : String) (params : List (String × String))
  /-- `await this._delay(command.delay)` -/
  | delayAwaited (ms : Int)
  /-- `this._notifyQueueEmpty()` (one notification pass over all
  registered listeners; listener exceptions are caught inside the pass) -/
  | queueEmptyFired
deriving DecidableEq, Repr

/-- The body of `executeAll`'s while loop: shift the head, dispatch it,
and await its delay only when the queue is still non-empty and the delay
is positive. -/
def executeAllLoop : List QueuedCommand → List QueueEvent
  | [] => []
  | c :: rest =>
    QueueEvent.dispatched c.commandName c.params ::
    ((if rest ≠ [] ∧ c.delay > 0 then [QueueEvent.delayAwaited c.delay] else []) ++
     executeAllLoop rest)

/-- The queue states observable at the top of each loop iteration (busy
flag as set for the drain, remaining queue shrinking). -/
def drainStates (busy : Bool) : List QueuedCommand → List CommandQueueState
  | [] => []
  | c :: rest => ⟨c :: rest, busy⟩ :: drainStates busy rest

/-- `CommandQueue.executeAll`, instrumented: returns the JS return value,
the final state, the event trace, and the intermediate states at each
loop iteration.  The two guards (`isExecuting`, empty queue) return
`false` without touching anything. -/
def executeAll (s : CommandQueueState) :
    Bool × CommandQueueState × List QueueEvent × List CommandQueueState :=
  if s.isExecuting then (false, s, [], [])
  else if s.queue.isEmpty then (false, s, [], [])
  else
    (true,
     { queue := [], isExecuting := false },
     executeAllLoop s.queue ++ [QueueEvent.queueEmptyFired],
     drainStates true s.queue)

/-- Loop events for a command that is never last in the queue (some item
always remains after it): the delay is awaited whenever it is positive. -/
def loopEventsMid : List QueuedCommand → List QueueEvent
  | [] => []
  | c :: rest =>
    QueueEvent.dispatched c.commandName c.params ::
    ((if c.delay > 0 then [QueueEvent.delayAwaited c.delay] else []) ++
     loopEventsMid rest)

/-- Projection picking the dispatch events out of a trace. -/
def dispatchedOf : QueueEvent → Option (String × List (String × String))
  | QueueEvent.dispatched n p => some (n, p)
  | _ => none

/-! ## EnvironmentManager: trees, buildings, scene graph

State: the `trees` and `buildings` collections (the two touched by the
tree-to-skyscraper workflow), the scene graph as the list of attached
container-object identities (each `new THREE.Group()` receives the next
`nextGroupId`; `scene.add` appends it, `scene.remove` erases it), the two
id counters, and the in-flight fade-out animation (`pendingFade` holds
the tree list captured by `fadeOutAndRemoveTrees`; the animation's final
tick is the explicit `fadeOutAndRemoveTreesFinish` operation).
`position.y` resolution through the terrain-height query happens before
the position is stored, so positions arrive here already resolved. -/

structure TreeEntity where
  id : String
  groupId : Nat
  position : Vec3
deriving DecidableEq, Repr

structure BuildingEntity where
  id : String
  groupId : Nat
  mesh : Object3DData
  meshScale : Vec3
  type : String
  position : Vec3
deriving DecidableEq, Repr

structure EnvState where
  trees : List TreeEntity
  buildings : List BuildingEntity
  scene : List Nat
  treeIdCounter : Nat
  buildingIdCounter : Nat
  nextGroupId : Nat
  pendingFade : Option (List TreeEntity)
deriving DecidableEq, Repr

def initialEnvState : EnvState :=
  { trees := [], buildings := [], scene := [],
    treeIdCounter := 0, buildingIdCounter := 0, nextGroupId := 0,
    pendingFade := none }

/-- Template-string ids: `` `tree_${this.treeIdCounter++}` `` etc. -/
def idString (kind : String) (n : Nat) : String := kind ++ "_" ++ toString n

/-- `EnvironmentManager.addTree` (source 1470-1536): assign the next tree
id, build the group at the given position, attach it to the scene, append
it to the collection.  The trunk/leaf meshes live inside the group and
are not tracked separately here. -/
def addTree (position : Vec3) (s : EnvState) : EnvState × TreeEntity :=
  let t : TreeEntity :=
    { id := idString "tree" s.treeIdCounter,
      groupId := s.nextGroupId,
      position := position }
  ({ s with trees := s.trees ++ [t],
            scene := s.scene ++ [t.groupId],
            treeIdCounter := s.treeIdCounter + 1,
            nextGroupId := s.nextGroupId + 1 }, t)

/-- `EnvironmentManager.removeTree` (source 1543-1552):
```js
const index = this.trees.findIndex(tree => tree.id === treeId);
if (index !== -1) {
  const tree = this.trees[index];
  this.scene.remove(tree.group);
  this.trees.splice(index, 1);
  return true;
}
return false;
```
`find?`/`eraseP` locate and splice the first entry whose id matches,
exactly as `findIndex`/`splice(index, 1)`. -/
def removeTree (treeId : String) (s : EnvState) : EnvState × Bool :=
  match s.trees.find? (fun t => t.id == treeId) with
  | none => (s, false)
  | some t =>
    ({ s with scene := s.scene.erase t.groupId,
              trees := s.trees.eraseP (fun u => u.id == treeId) }, true)

/-- `EnvironmentManager.clearTrees` (source 131-140): detach every tree's
group, then empty the collection. -/
def clearTrees (s : EnvState) : EnvState :=
  { s with scene := s.trees.foldl (fun sc t => sc.erase t.groupId) s.scene,
           trees := [] }

/-- `EnvironmentManager.spawnTreeType` (source 54-73): clear all current
trees, then add `count` new trees at the supplied (randomized) positions.
The type-specific color/scale options do not touch collections or the
scene and are elided. -/
def spawnTreeType (positions : Nat → Vec3) (count : Nat) (s : EnvState) : EnvState :=
  (List.range count).foldl (fun acc i => (addTree (positions i) acc).fst) (clearTrees s)

/-- Bounding-box size of a mesh (`new THREE.Box3().setFromObject(...)`
followed by `getSize`). -/
def meshBBoxSize (o : Object3DData) : Vec3 :=
  match o.geometry with
  | JSGeometry.boxGeometry w h d => Vec3.mk w h d
  | JSGeometry.customGeometry size => size

/-- The four `Math.random()` draws one transform-loop iteration makes
(target height, width, depth, height variation), each in `[0, 1)`. -/
structure RandomDraws where
  r1 : Rat
  r2 : Rat
  r3 : Rat
  r4 : Rat
deriving DecidableEq, Repr

/-- One iteration of the `transformTreesToSkyscrapers` loop (source
675-747): evaluate the snippet into a mesh (`createMeshFromSnippet`
absorbs every snippet failure, so the surrounding per-tree catch — which
would build a local fallback skyscraper — cannot fire from snippet
evaluation), scale the mesh so its largest dimension fits the 20-30 /
5-8 target envelope with a ±10% height variation, group it at the tree's
position, attach the group, append the entity to `buildings`.  (JS
divides by a zero bounding-box dimension to `Infinity`; `Rat` division by
zero yields 0 — the claims only reach non-degenerate sizes.)  The elastic
grow-up animation ends by restoring the exact original scale and is
elided. -/
def createSkyscraperAt (outcome : SnippetOutcome) (rnd : RandomDraws)
    (position : Vec3) (s : EnvState) : EnvState × BuildingEntity :=
  let skyscraperMesh := createMeshFromSnippet outcome
  let size := meshBBoxSize skyscraperMesh
  let targetHeight : Rat := 20 + rnd.r1 * 10
  let targetWidth : Rat := 5 + rnd.r2 * 3
  let targetDepth : Rat := 5 + rnd.r3 * 3
  let heightScale := targetHeight / size.y
  let widthScale := targetWidth / size.x
  let depthScale := targetDepth / size.z
  let uniformScale := min heightScale (min widthScale depthScale)
  let heightVariation : Rat := 9/10 + rnd.r4 * (2/10)
  let b : BuildingEntity :=
    { id := idString "skyscraper" s.buildingIdCounter,
      groupId := s.nextGroupId,
      mesh := skyscraperMesh,
      meshScale := Vec3.mk uniformScale (uniformScale * heightVariation) uniformScale,
      type := "fantasy_skyscraper",
      position := position }
  ({ s with buildings := s.buildings ++ [b],
            scene := s.scene ++ [b.groupId],
            buildingIdCounter := s.buildingIdCounter + 1,
            nextGroupId := s.nextGroupId + 1 }, b)

/-- The `for (const position of treePositions)` loop.  `outcomes i` /
`draws i` are the snippet behaviour and random draws of iteration `i`. -/
def transformLoop (outcomes : Nat → SnippetOutcome) (draws : Nat → RandomDraws) :
    Nat → List Vec3 → EnvState → EnvState × List BuildingEntity
  | _, [], s => (s, [])
  | i, p :: rest, s =>
    let r1 := createSkyscraperAt (outcomes i) (draws i) p s
    let r2 := transformLoop outcomes draws (i + 1) rest r1.fst
    (r2.fst, r1.snd :: r2.snd)

/-- `EnvironmentManager.fadeOutAndRemoveTrees` (source 984-1037), start:
captures the tree list and starts the 800 ms animation.  Until the final
tick the collections and the scene are untouched (the per-frame scale /
opacity writes do not move anything in or out). -/
def fadeOutAndRemoveTreesStart (treesToRemove : List TreeEntity) (s : EnvState) : EnvState :=
  { s with pendingFade := some treesToRemove }

/-- The fade-out animation's final tick (source 1023-1032):
```js
for (const tree of trees) { this.scene.remove(tree.group); }
this.trees = [];
```
Note it clears the whole `trees` collection, not just the captured
trees. -/
def fadeOutAndRemoveTreesFinish (s : EnvState) : EnvState :=
  match s.pendingFade with
  | none => s
  | some faded =>
    { s with scene := faded.foldl (fun sc t => sc.erase t.groupId) s.scene,
             trees := [],
             pendingFade := none }

/-- `EnvironmentManager.transformTreesToSkyscrapers` (source 651-753):
nothing to do without trees; otherwise capture positions and the tree
list, run the per-tree loop, then start the fade-out of the captured
trees. -/
def transformTreesToSkyscrapers (outcomes : Nat → SnippetOutcome)
    (draws : Nat → RandomDraws) (s : EnvState) : EnvState × List BuildingEntity :=
  if s.trees.isEmpty then (s, [])
  else
    let treePositions := s.trees.map (fun t => t.position)
    let treesToRemove := s.trees
    let r := transformLoop outcomes draws 0 treePositions s
    (fadeOutAndRemoveTreesStart treesToRemove r.fst, r.snd)

/-- The tree-lifecycle operations a caller can perform, including the
deferred final tick of an in-flight fade-out. -/
inductive EnvOp
  | addTree (position : Vec3)
  | removeTree (treeId : String)
  | clearTrees
  | spawnTreeType (positions : Nat → Vec3) (count : Nat)
  | transformTreesToSkyscrapers (outcomes : Nat → SnippetOutcome) (draws : Nat → RandomDraws)
  | fadeOutAndRemoveTreesFinish

def applyEnvOp (op : EnvOp) (s : EnvState) : EnvState :=
  match op with
  | EnvOp.addTree p => (addTree p s).fst
  | EnvOp.removeTree id => (removeTree id s).fst
  | EnvOp.clearTrees => clearTrees s
  | EnvOp.spawnTreeType ps n => spawnTreeType ps n s
  | EnvOp.transformTreesToSkyscrapers oc dr => (transformTreesToSkyscrapers oc dr s).fst
  | EnvOp.fadeOutAndRemoveTreesFinish => fadeOutAndRemoveTreesFinish s

def applyEnvOps (ops : List EnvOp) : EnvState :=
  ops.foldl (fun s op => applyEnvOp op s) initialEnvState

/-- Is some tracked entity's container the scene object `g`? -/
def memCollections (s : EnvState) (g : Nat) : Bool :=
  s.trees.any (fun t => t.groupId == g) || s.buildings.any (fun b => b.groupId == g)

/-- Is the container object `g` attached to the scene graph? -/
def attachedScene (s : EnvState) (g : Nat) : Bool := s.scene.contains g

/-- Collection membership and scene attachment change together across one
operation: for every container object, its membership bit flips exactly
when its attachment bit flips. -/
def atomicStep (s s' : EnvState) : Prop :=
  ∀ g : Nat, (memCollections s g ≠ memCollections s' g) ↔
    (attachedScene s g ≠ attachedScene s' g)

/-! ## NaturalLanguageProcessor (src/js/NaturalLanguageProcessor.js)

`applyEnvironmentUpdates` receives the parsed simple-parameter result and
fans it out to manager calls; the embedding records those calls as an
ordered trace.  Field values use JS truthiness (an empty string and the
number 0 are falsy, a present object is truthy).  Manager availability
(`managers.skyManager && ...` guards) is a record of flags. -/

structure TransformSpec where
  newObjectType : String
  scaleUpFactor : Rat
  colorScheme : String
  transitionAnimation : String
  particleEffect : String
deriving DecidableEq, Repr

/-- The recognized simple-parameter fields (`commands.<field>`), each
`none` when absent from the parsed JSON. -/
structure GameCommands where
  sky_color : Option String := none
  ground_color : Option String := none
  tree_type : Option String := none
  tree_count : Option Nat := none
  building_type : Option String := none
  weather_effect : Option String := none
  ambient_light_color : Option String := none
  particle_effect : Option String := none
  player_color : Option String := none
  transform_trees_to_buildings : Option TransformSpec := none
deriving DecidableEq, Repr

/-- JS truthiness of a possibly-absent string field. -/
def truthyStr : Option String → Bool
  | none => false
  | some v => decide (v ≠ "")

/-- JS truthiness of a possibly-absent number field. -/
def truthyNat : Option Nat → Bool
  | none => false
  | some n => decide (n ≠ 0)

/-- Which managers the dispatcher exposes (`this.commandDispatcher.managers`),
plus the `typeof skyManager.changeAmbientLightColor === 'function'` probe. -/
structure Managers where
  skyManager : Bool
  groundManager : Bool
  environmentManager : Bool
  playerManager : Bool
  hasChangeAmbientLightColor : Bool
deriving DecidableEq, Repr

def allManagers : Managers :=
  { skyManager := true, groundManager := true, environmentManager := true,
    playerManager := true, hasChangeAmbientLightColor := true }

/-- One observable manager method call. -/
inductive ManagerCall
  | changeSkyColor (color : String)
  | changeGroundColor (color : String)
  | spawnTreeTypeCall (treeType : String) (count : Nat)
  | spawnBuildingTypeCall (buildingType : String)
  | startWeatherEffect (effect : String)
  | changeAmbientLightColor (color : String)
  | startParticleEffect (effect : String)
  | changePlayerColor (color : String)
  | transformTreesToBuildingsCall (spec : TransformSpec)
  | transformTreesToSkyscrapersCall (snippet : String)
  | addTreeCall
deriving DecidableEq, Repr

/-- JS `params.parameter || default` inside a dispatcher handler. -/
def jsOrDefault (p : Option String) (d : String) : String :=
  match p with
  | none => d
  | some v => if v = "" then d else v

/-- JS `parseInt(params.parameter) || 1` in the `spawn_trees` handler:
leading decimal digits of the trimmed parameter, `1` on `NaN` or `0`. -/
def jsParseIntOr1 (p : Option String) : Nat :=
  match p with
  | none => 1
  | some v =>
    match jsTrimList v.data with
    | [] => 1
    | c :: rest =>
      if c.isDigit then
        let n := (parseDigitsAcc 0 (c :: rest)).fst
        if n = 0 then 1 else n
      else 1

/-- The dispatcher handlers reachable from the processor's default-scene
path (src/js/CommandDispatcher.js: `change_sky_color`,
`change_ground_color`, `spawn_trees`): parse the command input, look up
the handler, run it.  Unknown names fail without calls. -/
def dispatchForDefaultScene (input : String) : List ManagerCall :=
  let parsed := parseCommandInput input
  if parsed.commandName = "change_sky_color" then
    [ManagerCall.changeSkyColor (jsOrDefault parsed.parameter "#87CEEB")]
  else if parsed.commandName = "change_ground_color" then
    [ManagerCall.changeGroundColor (jsOrDefault parsed.parameter "#4CAF50")]
  else if parsed.commandName = "spawn_trees" then
    List.replicate (jsParseIntOr1 parsed.parameter) ManagerCall.addTreeCall
  else []

/-- The nine field-application branches of `applyEnvironmentUpdates`
(source 217-291), in source order, as the trace of manager calls. -/
def applyRecognizedFields (m : Managers) (c : GameCommands) : List ManagerCall :=
  (if truthyStr c.sky_color && m.skyManager then
    [ManagerCall.changeSkyColor (c.sky_color.getD "")] else []) ++
  (if truthyStr c.ground_color && m.groundManager then
    [ManagerCall.changeGroundColor (c.ground_color.getD "")] else []) ++
  (if truthyStr c.tree_type && m.environmentManager then
    [ManagerCall.spawnTreeTypeCall (c.tree_type.getD "")
      (if truthyNat c.tree_count then c.tree_count.getD 5 else 5)] else []) ++
  (if truthyStr c.building_type && m.environmentManager then
    [ManagerCall.spawnBuildingTypeCall (c.building_type.getD "")] else []) ++
  (if truthyStr c.weather_effect && m.environmentManager then
    [ManagerCall.startWeatherEffect (c.weather_effect.getD "")] else []) ++
  (if truthyStr c.ambient_light_color && m.skyManager && m.hasChangeAmbientLightColor then
    [ManagerCall.changeAmbientLightColor (c.ambient_light_color.getD "")] else []) ++
  (if truthyStr c.particle_effect && m.environmentManager then
    [ManagerCall.startParticleEffect (c.particle_effect.getD "")] else []) ++
  (if truthyStr c.player_color && m.playerManager then
    [ManagerCall.changePlayerColor (c.player_color.getD "")] else []) ++
  (if c.transform_trees_to_buildings.isSome && m.environmentManager then
    [ManagerCall.transformTreesToBuildingsCall
      (c.transform_trees_to_buildings.getD
        ⟨"", 0, "", "", ""⟩)] else [])

/-- The `changesApplied` flag after the nine branches: exactly the
disjunction of the guards that set it (the ambient branch sets it only
when the method probe succeeds). -/
def changesAppliedFlag (m : Managers) (c : GameCommands) : Bool :=
  (truthyStr c.sky_color && m.skyManager) ||
  (truthyStr c.ground_color && m.groundManager) ||
  (truthyStr c.tree_type && m.environmentManager) ||
  (truthyStr c.building_type && m.environmentManager) ||
  (truthyStr c.weather_effect && m.environmentManager) ||
  (truthyStr c.ambient_light_color && m.skyManager && m.hasChangeAmbientLightColor) ||
  (truthyStr c.particle_effect && m.environmentManager) ||
  (truthyStr c.player_color && m.playerManager) ||
  (c.transform_trees_to_buildings.isSome && m.environmentManager)

/-- The default spring scene applied when no recognized field matched
(source 293-303): two dispatcher commands, then five oak trees through
the environment manager (or `spawn_trees:5` through the dispatcher when
it is missing). -/
def defaultSpringScene (m : Managers) : List ManagerCall :=
  dispatchForDefaultScene "change_sky_color:#87CEEB" ++
  dispatchForDefaultScene "change_ground_color:#4CAF50" ++
  (if m.environmentManager then [ManagerCall.spawnTreeTypeCall "oak" 5]
   else dispatchForDefaultScene "spawn_trees:5")

/-- `NaturalLanguageProcessor.applyEnvironmentUpdates` (source 197-310):
the trace of manager calls made, and the returned `changesApplied`. -/
def applyEnvironmentUpdates (m : Managers) (c : GameCommands) :
    List ManagerCall × Bool :=
  let calls := applyRecognizedFields m c
  if changesAppliedFlag m c then (calls, true)
  else (calls ++ defaultSpringScene m, false)

/-! ## NaturalLanguageProcessor.processInput (source 31-150)

One call's observable behaviour: the callback invocations and manager
calls, in order, plus the processor state (`isProcessing`).  The router's
awaited result (or its error) is the `routerResult` parameter; the 20 s
spinner timeout is real time and outside the embedding (the claims'
exit paths are success, router error and apply-time error). -/

structure NLPState where
  isProcessing : Bool
deriving DecidableEq, Repr

inductive RouterResult
  | simpleParameter (data : GameCommands)
  | codeGeneratorSkyscraper (snippet : String) (comments : String)
  | routerError (msg : String)
deriving DecidableEq, Repr

inductive NLPEvent
  | startCallback
  | errorCallback (msg : String)
  | successCallback
  | completeCallback
  | managerAction (call : ManagerCall)
deriving DecidableEq, Repr

def invalidInputMsg : String := "Please provide a valid input description."
def busyMsg : String := "Already processing a request, please wait."

/-- `NaturalLanguageProcessor.processInput`: input validation, the
busy-flag re-entrancy guard, then the try/catch/finally around routing
and application.  On the skyscraper path `applySkyscraperTransformation`
throws when the environment manager is unavailable (an apply-time error
caught by the same catch). -/
def processInput (m : Managers) (s : NLPState) (input : String)
    (routerResult : RouterResult) : NLPState × List NLPEvent :=
  if jsTrim input = "" then
    (s, [NLPEvent.errorCallback invalidInputMsg, NLPEvent.completeCallback])
  else if s.isProcessing then
    (s, [NLPEvent.errorCallback busyMsg, NLPEvent.completeCallback])
  else
    let bodyEvents : List NLPEvent :=
      match routerResult with
      | RouterResult.simpleParameter data =>
        ((applyEnvironmentUpdates m data).fst.map NLPEvent.managerAction) ++
        [NLPEvent.successCallback]
      | RouterResult.codeGeneratorSkyscraper snippet _ =>
        if m.environmentManager then
          [NLPEvent.managerAction (ManagerCall.transformTreesToSkyscrapersCall snippet),
           NLPEvent.successCallback]
        else
          [NLPEvent.errorCallback "EnvironmentManager not available"]
      | RouterResult.routerError msg => [NLPEvent.errorCallback msg]
    (⟨false⟩, NLPEvent.startCallback :: bodyEvents ++ [NLPEvent.completeCallback])

/-! ## Theorems -/

/-- A prefix of a longer needle is a prefix of anything the longer needle
prefixes. -/
lemma isPrefixOf_append_left (n₁ : List Char) :
    ∀ (n₂ l : List Char), (n₁ ++ n₂).isPrefixOf l = true → n₁.isPrefixOf l = true := by
  induction n₁ with
  | nil => intro n₂ l _; cases l <;> rfl
  | cons a n₁ ih =>
    intro n₂ l h
    cases l with
    | nil => simp [List.isPrefixOf] at h
    | cons b l =>
      simp only [List.cons_append, List.isPrefixOf, Bool.and_eq_true] at h ⊢
      exact ⟨h.1, ih n₂ l h.2⟩

/-- `includes` is antitone in the needle: containing `n₁ ++ n₂` implies
containing `n₁`. -/
lemma containsList_append_left (n₁ n₂ : List Char) :
    ∀ l : List Char, containsList (n₁ ++ n₂) l = true → containsList n₁ l = true := by
  intro l
  induction l with
  | nil =>
    simp only [containsList, List.isEmpty_eq_true, List.append_eq_nil]
    intro h
    simp [h.1]
  | cons c rest ih =>
    simp only [containsList, Bool.or_eq_true]
    intro h
    rcases h with h | h
    · exact Or.inl (isPrefixOf_append_left n₁ n₂ _ h)
    · exact Or.inr (ih h)

lemma jsIncludes_skyscraper_of_plural (l : String)
    (h : jsIncludes l "skyscrapers" = true) : jsIncludes l "skyscraper" = true :=
  containsList_append_left "skyscraper".data ['s'] l.data h

lemma jsIncludes_tree_of_plural (l : String)
    (h : jsIncludes l "trees" = true) : jsIncludes l "tree" = true :=
  containsList_append_left "tree".data ['s'] l.data h

/-- The code's keyword test is equivalent to the spec's three-way
conjunction: a tree term, a skyscraper term, and a transform verb. -/
lemma isSkyscraperRequest_iff (l : String) :
    isSkyscraperRequest l = true ↔
      (jsIncludes l "tree" = true ∧ jsIncludes l "skyscraper" = true ∧
       (jsIncludes l "replace" = true ∨ jsIncludes l "transform" = true ∨
        jsIncludes l "change" = true ∨ jsIncludes l "turn" = true)) := by
  unfold isSkyscraperRequest
  simp only [Bool.and_eq_true, Bool.or_eq_true]
  constructor
  · intro h
    obtain ⟨⟨hsky, htree⟩, hverb⟩ := h
    refine ⟨?_, ?_, ?_⟩
    · rcases htree with h | h
      · exact h
      · exact jsIncludes_tree_of_plural l h
    · rcases hsky with h | h
      · exact h
      · exact jsIncludes_skyscraper_of_plural l h
    · tauto
  · intro h
    obtain ⟨htree, hsky, hverb⟩ := h
    refine ⟨⟨Or.inl hsky, Or.inl htree⟩, ?_⟩
    tauto

/-- C5: `determineRequestType` classifies an input as
code-generator/"skyscraper" exactly when its lowercasing simultaneously
contains a tree term, a skyscraper term and one of the transform verbs
replace/transform/change/turn, and as simple-parameter/"environment"
otherwise; in particular "Turn the trees into skyscrapers" is
code-generator/skyscraper, "Make it a sunny day with green grass" is
simple-parameter, and a skyscraper mention without tree term or transform
verb is simple-parameter. -/
theorem determineRequestType_keyword_conjunction (input : String) :
    (determineRequestType input = ⟨"code_generator", "skyscraper"⟩ ↔
      (jsIncludes (jsToLowerCase input) "tree" = true ∧
       jsIncludes (jsToLowerCase input) "skyscraper" = true ∧
       (jsIncludes (jsToLowerCase input) "replace" = true ∨
        jsIncludes (jsToLowerCase input) "transform" = true ∨
        jsIncludes (jsToLowerCase input) "change" = true ∨
        jsIncludes (jsToLowerCase input) "turn" = true))) ∧
    (determineRequestType input = ⟨"code_generator", "skyscraper"⟩ ∨
     determineRequestType input = ⟨"simple_parameter", "environment"⟩) ∧
    determineRequestType "Turn the trees into skyscrapers" =
      ⟨"code_generator", "skyscraper"⟩ ∧
    determineRequestType "Make it a sunny day with green grass" =
      ⟨"simple_parameter", "environment"⟩ ∧
    determineRequestType "I would like a skyscraper over there" =
      ⟨"simple_parameter", "environment"⟩ := by
  refine ⟨?_, ?_, by decide, by decide, by decide⟩
  · rw [← isSkyscraperRequest_iff]
    unfold determineRequestType
    by_cases h : isSkyscraperRequest (jsToLowerCase input) = true
    · simp [h]
    · simp only [Bool.not_eq_true] at h
      simp [h]
  · unfold determineRequestType
    by_cases h : isSkyscraperRequest (jsToLowerCase input) = true
    · simp [h]
    · simp only [Bool.not_eq_true] at h
      simp [h]

/-- C2: on every failing snippet outcome (throws, `undefined`, or a
non-renderable value) `createMeshFromSnippet` returns the fixed fallback
object — a 3×30×3 box with color 0x8ecae6 at `y = 15` — and hence two
calls with failing outcomes return structurally equal fallbacks.  (As a
total Lean function the embedding also witnesses that the JS function
never raises: every branch produces a renderable object.) -/
theorem createMeshFromSnippet_fixed_fallback (o : SnippetOutcome)
    (h : failsValidation o = true) :
    createMeshFromSnippet o =
      { geometry := JSGeometry.boxGeometry 3 30 3, color := 0x8ecae6, posY := 15 } ∧
    (∀ o₂ : SnippetOutcome, failsValidation o₂ = true →
      createMeshFromSnippet o = createMeshFromSnippet o₂) := by
  have key : ∀ x : SnippetOutcome, failsValidation x = true →
      createMeshFromSnippet x = defaultMesh := by
    intro x hx
    cases x with
    | throws m => rfl
    | returns v =>
      cases v with
      | undefinedValue => rfl
      | object3D o => simp [failsValidation] at hx
      | otherValue t => rfl
  exact ⟨key o h, fun o₂ h₂ => (key o h).trans (key o₂ h₂).symm⟩

/-- Witness for C2 at a concrete throwing snippet and a concrete
non-renderable result. -/
theorem createMeshFromSnippet_fixed_fallback_witness :
    createMeshFromSnippet (SnippetOutcome.throws "TypeError: boom") =
      { geometry := JSGeometry.boxGeometry 3 30 3, color := 0x8ecae6, posY := 15 } ∧
    createMeshFromSnippet (SnippetOutcome.throws "TypeError: boom") =
      createMeshFromSnippet (SnippetOutcome.returns JsValue.undefinedValue) :=
  ⟨(createMeshFromSnippet_fixed_fallback (SnippetOutcome.throws "TypeError: boom") rfl).1,
   (createMeshFromSnippet_fixed_fallback (SnippetOutcome.throws "TypeError: boom") rfl).2
     (SnippetOutcome.returns JsValue.undefinedValue) rfl⟩

/-- Splitting a colon-free string yields the one-element list. -/
lemma splitOnColon_no_colon (l : List Char) (h : (':' : Char) ∉ l) :
    splitOnColon l = [l] := by
  induction l with
  | nil => rfl
  | cons c cs ih =>
    have hc : c ≠ ':' := fun hc => h (hc ▸ List.mem_cons_self c cs)
    have hcs : (':' : Char) ∉ cs := fun hm => h (List.mem_cons_of_mem c hm)
    simp only [splitOnColon, if_neg hc, ih hcs]

/-- Splitting at the first colon. -/
lemma splitOnColon_append (n rest : List Char) (h : (':' : Char) ∉ n) :
    splitOnColon (n ++ ':' :: rest) = n :: splitOnColon rest := by
  induction n with
  | nil => simp [splitOnColon]
  | cons c cs ih =>
    have hc : c ≠ ':' := fun hc => h (hc ▸ List.mem_cons_self c cs)
    have hcs : (':' : Char) ∉ cs := fun hm => h (List.mem_cons_of_mem c hm)
    simp only [List.cons_append, splitOnColon, if_neg hc, List.append_eq, ih hcs]

/-- `splitOnColon` never returns the empty list. -/
lemma splitOnColon_ne_nil (l : List Char) : splitOnColon l ≠ [] := by
  cases l with
  | nil => simp [splitOnColon]
  | cons c cs =>
    by_cases hc : c = ':'
    · simp [splitOnColon, hc]
    · simp only [splitOnColon, if_neg hc]
      cases splitOnColon cs with
      | nil => simp
      | cons h t => simp

/-- C9: for a command string `name:param` with exactly one colon,
`parseCommandInput` yields the trimmed name and the trimmed parameter;
for a colon-free string it yields the trimmed name and a null parameter.
(A colon always splits: the grammar offers no way to escape a literal
colon into the parameter.) -/
theorem parseCommandInput_name_param (n p : String)
    (hn : (':' : Char) ∉ n.data) (hp : (':' : Char) ∉ p.data) :
    parseCommandInput (n ++ ":" ++ p) = ⟨jsTrim n, some (jsTrim p)⟩ ∧
    parseCommandInput n = ⟨jsTrim n, none⟩ := by
  constructor
  · have hdata : (n ++ ":" ++ p).data = n.data ++ ':' :: p.data := by
      simp [String.data_append]
    unfold parseCommandInput
    rw [hdata, splitOnColon_append n.data p.data hn, splitOnColon_no_colon p.data hp]
    exact rfl
  · unfold parseCommandInput
    rw [splitOnColon_no_colon n.data hn]
    exact rfl

/-- Witness for C9 at `"spawn_trees: 5 "` (note the surrounding blanks
being trimmed) and at the parameterless `"reset_player"`. -/
theorem parseCommandInput_name_param_witness :
    parseCommandInput ("spawn_trees" ++ ":" ++ " 5 ") =
      ⟨jsTrim "spawn_trees", some (jsTrim " 5 ")⟩ ∧
    parseCommandInput "spawn_trees" = ⟨jsTrim "spawn_trees", none⟩ :=
  parseCommandInput_name_param "spawn_trees" " 5 " (by decide) (by decide)

/-- The actual recovery pattern cannot match anywhere in a text that
contains no backslash character (its first mandatory character is a
literal backslash). -/
lemma jsBuggyRegexFirstMatch_none_of_no_backslash (l : List Char)
    (h : backslashChar ∉ l) : jsBuggyRegexFirstMatch l = none := by
  induction l with
  | nil => rfl
  | cons c rest ih =>
    have hc : c ≠ backslashChar := fun hc => h (hc ▸ List.mem_cons_self c rest)
    have hrest : backslashChar ∉ rest := fun hm => h (List.mem_cons_of_mem c hm)
    have hmatch : matchBuggyAt (c :: rest) = none := by
      cases rest with
      | nil => rfl
      | cons o t => simp [matchBuggyAt, hc]
    simp [jsBuggyRegexFirstMatch, hmatch, ih hrest]

/-- A prose-wrapped simple-parameter response: not directly parseable as
JSON, but containing a valid brace-delimited JSON object. -/
def proseWrappedSimpleResponse : String :=
  "Here is the JSON: \x7b\"sky_color\":\"#000000\"\x7d"

/-- A prose-wrapped code-generator response of the same shape. -/
def proseWrappedCodeResponse : String :=
  "Sure! \x7b\"javascript_code_snippet\":\"const g = 1;\"\x7d"

/-- C3 (code behaviour at the failing inputs): on prose-wrapped responses
whose brace-delimited substring is valid JSON, both router parsers report
the "could not extract JSON" parse error instead of recovering — the
recovery regex `/\\{[\\s\\S]*\\}/` demands literal backslash-brace
sequences, which the responses (like any ordinary LLM text) do not
contain, while the brace-span extraction the spec describes succeeds and
re-parses to the expected object on the very same inputs. -/
theorem routerParsers_brace_recovery_never_fires :
    parseSimpleParameterResponse proseWrappedSimpleResponse =
      Except.error RouterParseError.noJsonFound ∧
    parseCodeGeneratorResponse proseWrappedCodeResponse =
      Except.error RouterParseError.noJsonFound ∧
    backslashChar ∉ proseWrappedSimpleResponse.data ∧
    jsBuggyRegexFirstMatch proseWrappedSimpleResponse.data = none ∧
    (jsIntendedRegexFirstMatch proseWrappedSimpleResponse.data).map String.mk =
      some "\x7b\"sky_color\":\"#000000\"\x7d" ∧
    jsonParse "\x7b\"sky_color\":\"#000000\"\x7d" =
      some (Json.obj [("sky_color", Json.str "#000000")]) ∧
    (jsIntendedRegexFirstMatch proseWrappedCodeResponse.data).map String.mk =
      some "\x7b\"javascript_code_snippet\":\"const g = 1;\"\x7d" ∧
    parseCodeGeneratorResponse "\x7b\"javascript_code_snippet\":\"const g = 1;\"\x7d" =
      Except.ok { javascriptCodeSnippet := Json.str "const g = 1;",
                  comments := Json.str "" } :=
  ⟨rfl, rfl, by decide, rfl, rfl, rfl, rfl, rfl⟩

/-- C7: with all managers available, a simple-parameter result carrying
only `sky_color = "#000000"` produces exactly one sky-color manager call
with that value and no other call; a result with no recognized field
triggers the fixed default spring scene — sky `#87CEEB` through the
dispatcher, ground `#4CAF50` through the dispatcher, then five oak
trees. -/
theorem applyEnvironmentUpdates_sky_only_and_empty_default :
    applyEnvironmentUpdates allManagers { sky_color := some "#000000" } =
      ([ManagerCall.changeSkyColor "#000000"], true) ∧
    applyEnvironmentUpdates allManagers {} =
      ([ManagerCall.changeSkyColor "#87CEEB",
        ManagerCall.changeGroundColor "#4CAF50",
        ManagerCall.spawnTreeTypeCall "oak" 5], false) :=
  ⟨rfl, rfl⟩

/-- The drain loop on a queue whose last element is `c`: every earlier
command is followed by its (positive) delay, the final command by no
delay at all. -/
lemma executeAllLoop_append_last (q : List QueuedCommand) (c : QueuedCommand) :
    executeAllLoop (q ++ [c]) =
      loopEventsMid q ++ [QueueEvent.dispatched c.commandName c.params] := by
  induction q with
  | nil => simp [executeAllLoop, loopEventsMid]
  | cons a q ih =>
    have hne : q ++ [c] ≠ [] := by simp
    by_cases hd : a.delay > 0
    · simp [executeAllLoop, loopEventsMid, ih, hne, hd]
    · simp [executeAllLoop, loopEventsMid, ih, hne, hd]

/-- The dispatch events of the mid-queue loop trace are exactly the
commands, in order. -/
lemma filterMap_dispatchedOf_loopEventsMid (q : List QueuedCommand) :
    (loopEventsMid q).filterMap dispatchedOf =
      q.map (fun cmd => (cmd.commandName, cmd.params)) := by
  induction q with
  | nil => rfl
  | cons a q ih =>
    by_cases hd : a.delay > 0 <;>
      simp [loopEventsMid, hd, dispatchedOf, ih]

/-- The loop itself never fires the queue-empty notification. -/
lemma queueEmptyFired_not_mem_loopEventsMid (q : List QueuedCommand) :
    QueueEvent.queueEmptyFired ∉ loopEventsMid q := by
  induction q with
  | nil => simp [loopEventsMid]
  | cons a q ih =>
    by_cases hd : a.delay > 0 <;>
      simp [loopEventsMid, hd, ih]

/-- Every state observed during the drain carries the busy flag. -/
lemma drainStates_all_busy (b : Bool) (q : List QueuedCommand) :
    ∀ st ∈ drainStates b q, st.isExecuting = b := by
  induction q with
  | nil => intro st h; simp [drainStates] at h
  | cons a q ih =>
    intro st h
    simp only [drainStates, List.mem_cons] at h
    rcases h with h | h
    · rw [h]
    · exact ih st h

/-- C4: on a non-busy queue holding the commands `q ++ [c]`, `executeAll`
dispatches each command exactly once in FIFO order, awaits a (positive)
configured delay only between commands — never after the final one —
fires the queue-empty listeners exactly once, after the last dispatch,
holds the busy flag through every loop iteration and clears it in the
final state; called while already executing, or on an empty queue, it
returns `false` and does nothing. -/
theorem commandQueue_executeAll_contract (s : CommandQueueState)
    (q : List QueuedCommand) (c : QueuedCommand)
    (hbusy : s.isExecuting = false) (hqueue : s.queue = q ++ [c]) :
    executeAll s =
      (true, ⟨[], false⟩,
       loopEventsMid q ++ [QueueEvent.dispatched c.commandName c.params,
         QueueEvent.queueEmptyFired],
       drainStates true (q ++ [c])) ∧
    (loopEventsMid q ++ [QueueEvent.dispatched c.commandName c.params,
        QueueEvent.queueEmptyFired]).filterMap dispatchedOf =
      (q ++ [c]).map (fun cmd => (cmd.commandName, cmd.params)) ∧
    QueueEvent.queueEmptyFired ∉
      loopEventsMid q ++ [QueueEvent.dispatched c.commandName c.params] ∧
    (∀ st ∈ drainStates true (q ++ [c]), st.isExecuting = true) ∧
    (∀ s' : CommandQueueState, s'.isExecuting = true →
      executeAll s' = (false, s', [], [])) ∧
    (∀ s' : CommandQueueState, s'.queue = [] →
      executeAll s' = (false, s', [], [])) := by
  refine ⟨?_, ?_, ?_, drainStates_all_busy true (q ++ [c]), ?_, ?_⟩
  · unfold executeAll
    rw [hbusy, hqueue]
    have hne : ((q ++ [c]).isEmpty) = false := by simp
    simp only [hne, Bool.false_eq_true, if_false, executeAllLoop_append_last]
    simp
  · rw [List.filterMap_append, filterMap_dispatchedOf_loopEventsMid]
    simp [dispatchedOf]
  · simp [queueEmptyFired_not_mem_loopEventsMid q]
  · intro s' h
    unfold executeAll
    rw [h]
    simp
  · intro s' h
    unfold executeAll
    rw [h]
    by_cases hb : s'.isExecuting = true <;> simp [hb]

/-- Witness for C4: a concrete three-command queue (delays 150, 0, 200)
drained from the idle state. -/
theorem commandQueue_executeAll_contract_witness :
    executeAll ⟨[⟨"day_sky", [], 150⟩, ⟨"add_tree", [], 0⟩, ⟨"night_sky", [], 200⟩], false⟩ =
      (true, ⟨[], false⟩,
       loopEventsMid [⟨"day_sky", [], 150⟩, ⟨"add_tree", [], 0⟩] ++
         [QueueEvent.dispatched "night_sky" [], QueueEvent.queueEmptyFired],
       drainStates true ([⟨"day_sky", [], 150⟩, ⟨"add_tree", [], 0⟩] ++ [⟨"night_sky", [], 200⟩])) :=
  (commandQueue_executeAll_contract
    ⟨[⟨"day_sky", [], 150⟩, ⟨"add_tree", [], 0⟩, ⟨"night_sky", [], 200⟩], false⟩
    [⟨"day_sky", [], 150⟩, ⟨"add_tree", [], 0⟩] ⟨"night_sky", [], 200⟩ rfl rfl).1

/-- C8: a `processInput` call made while the busy flag is set reports the
busy error and completes immediately — it performs no routing and no
scene mutation and leaves the processor state (hence the in-flight first
call's eventual outcome) untouched; and a call that does run (any router
result: success, router error, or the apply-time error on the skyscraper
path) ends with the busy flag cleared. -/
theorem processInput_busy_guard (m : Managers) (s : NLPState) (input : String)
    (r : RouterResult) (hvalid : jsTrim input ≠ "") :
    (s.isProcessing = true →
      processInput m s input r =
        (s, [NLPEvent.errorCallback busyMsg, NLPEvent.completeCallback])) ∧
    (s.isProcessing = false →
      (processInput m s input r).fst.isProcessing = false) := by
  constructor
  · intro hbusy
    unfold processInput
    rw [if_neg hvalid, hbusy]
    simp
  · intro hidle
    unfold processInput
    rw [if_neg hvalid, hidle]
    simp

/-- Witness for C8: a concrete busy second call, and a concrete completed
run (here ending in a router error) whose final state is idle. -/
theorem processInput_busy_guard_witness :
    processInput allManagers ⟨true⟩ "make it rain" (RouterResult.routerError "timeout") =
      (⟨true⟩, [NLPEvent.errorCallback busyMsg, NLPEvent.completeCallback]) ∧
    (processInput allManagers ⟨false⟩ "make it rain"
      (RouterResult.routerError "timeout")).fst.isProcessing = false :=
  ⟨(processInput_busy_guard allManagers ⟨true⟩ "make it rain"
      (RouterResult.routerError "timeout") (by decide)).1 rfl,
   (processInput_busy_guard allManagers ⟨false⟩ "make it rain"
      (RouterResult.routerError "timeout") (by decide)).2 rfl⟩

/-- `find?` hitting `t` splits the list at the first satisfying element,
and `eraseP` splices out exactly that element. -/
lemma find?_split {α : Type} (p : α → Bool) (l : List α) (t : α)
    (h : l.find? p = some t) :
    ∃ pre post, l = pre ++ t :: post ∧ (∀ u ∈ pre, p u = false) ∧
      l.eraseP p = pre ++ post := by
  induction l with
  | nil => simp at h
  | cons a l ih =>
    by_cases ha : p a = true
    · rw [List.find?_cons_of_pos l ha] at h
      obtain rfl : a = t := by injection h
      exact ⟨[], l, rfl, by simp, by simp [List.eraseP_cons_of_pos ha]⟩
    · rw [List.find?_cons_of_neg l ha] at h
      obtain ⟨pre, post, hl, hpre, herase⟩ := ih h
      refine ⟨a :: pre, post, by simp [hl], ?_, ?_⟩
      · intro u hu
        rcases List.mem_cons.mp hu with rfl | hu
        · simpa using ha
        · exact hpre u hu
      · simp [List.eraseP_cons_of_neg (by simpa using ha), herase]

/-- C10: `removeTree` on an id absent from the trees collection returns
`false` and changes neither the collection nor the scene; on an id that
is present (first occurrence `t` after prefix `pre`), it returns `true`,
detaches exactly `t`'s group from the scene (no other attachment is
touched), and removes exactly that one entry, leaving every other tree
in place. -/
theorem removeTree_contract (s : EnvState) (treeId : String) :
    ((∀ t ∈ s.trees, t.id ≠ treeId) → removeTree treeId s = (s, false)) ∧
    (∀ pre t post, s.trees = pre ++ t :: post → t.id = treeId →
      (∀ u ∈ pre, u.id ≠ treeId) → s.scene.Nodup →
      removeTree treeId s =
        ({ s with scene := s.scene.erase t.groupId, trees := pre ++ post }, true) ∧
      t.groupId ∉ s.scene.erase t.groupId ∧
      (∀ g ∈ s.scene, g ≠ t.groupId → g ∈ s.scene.erase t.groupId)) := by
  constructor
  · intro habsent
    unfold removeTree
    have hnone : s.trees.find? (fun t => t.id == treeId) = none := by
      rw [List.find?_eq_none]
      intro t ht
      simpa using habsent t ht
    rw [hnone]
  · intro pre t post hsplit hid hpre hnodup
    have key : ∀ (pr : List TreeEntity), (∀ u ∈ pr, u.id ≠ treeId) →
        (pr ++ t :: post).find? (fun u => u.id == treeId) = some t ∧
        (pr ++ t :: post).eraseP (fun u => u.id == treeId) = pr ++ post := by
      intro pr
      induction pr with
      | nil =>
        intro _
        constructor
        · exact List.find?_cons_of_pos post (by simp [hid])
        · exact List.eraseP_cons_of_pos (by simp [hid])
      | cons a pr ih =>
        intro hne
        have ha : ¬ ((a.id == treeId) = true) := by
          simpa using hne a (List.mem_cons_self a pr)
        have ihr := ih (fun u hu => hne u (List.mem_cons_of_mem a hu))
        constructor
        · rw [List.cons_append,
            List.find?_cons_of_neg (p := fun u => u.id == treeId) (pr ++ t :: post) ha]
          exact ihr.1
        · rw [List.cons_append,
            @List.eraseP_cons_of_neg TreeEntity a (pr ++ t :: post)
              (fun u => u.id == treeId) ha, ihr.2,
            List.cons_append]
    have hkey := key pre hpre
    refine ⟨?_, hnodup.not_mem_erase, ?_⟩
    · unfold removeTree
      rw [hsplit, hkey.1, hkey.2]
    · intro g hg hne
      exact (List.mem_erase_of_ne hne).mpr hg

/-- A demo state with two trees (groups 0 and 1 attached), used to
instantiate hypotheses of the environment-manager theorems. -/
def demoEnvState : EnvState :=
  { trees := [⟨"tree_0", 0, ⟨1, 0, 2⟩⟩, ⟨"tree_1", 1, ⟨3, 0, 4⟩⟩],
    buildings := [], scene := [0, 1],
    treeIdCounter := 2, buildingIdCounter := 0, nextGroupId := 2,
    pendingFade := none }

/-- Witness for C10: removing an absent id is a no-op returning `false`;
removing `"tree_0"` detaches group 0 and leaves only `"tree_1"`. -/
theorem removeTree_contract_witness :
    removeTree "tree_9" demoEnvState = (demoEnvState, false) ∧
    removeTree "tree_0" demoEnvState =
      ({ demoEnvState with
          scene := demoEnvState.scene.erase 0,
          trees := ([] : List TreeEntity) ++ [⟨"tree_1", 1, ⟨3, 0, 4⟩⟩] }, true) :=
  ⟨(removeTree_contract demoEnvState "tree_9").1 (by decide),
   ((removeTree_contract demoEnvState "tree_0").2 [] ⟨"tree_0", 0, ⟨1, 0, 2⟩⟩
      [⟨"tree_1", 1, ⟨3, 0, 4⟩⟩] rfl rfl (by decide) (by decide)).1⟩

/-- Every failing outcome evaluates to the fixed fallback mesh. -/
lemma createMeshFromSnippet_of_fails (o : SnippetOutcome)
    (h : failsValidation o = true) : createMeshFromSnippet o = defaultMesh := by
  cases o with
  | throws m => rfl
  | returns v =>
    cases v with
    | undefinedValue => rfl
    | object3D o => simp [failsValidation] at h
    | otherValue t => rfl

/-- The transform loop on any position list: one new building per
position, appended in order to `buildings` and to the scene, positions
preserved, trees and the pending fade untouched; when every snippet
outcome fails validation, every created building carries the fallback
mesh. -/
lemma transformLoop_spec (outcomes : Nat → SnippetOutcome) (draws : Nat → RandomDraws)
    (hfail : ∀ j, failsValidation (outcomes j) = true) :
    ∀ (ps : List Vec3) (i : Nat) (s : EnvState),
      (transformLoop outcomes draws i ps s).snd.length = ps.length ∧
      (transformLoop outcomes draws i ps s).fst.buildings =
        s.buildings ++ (transformLoop outcomes draws i ps s).snd ∧
      (transformLoop outcomes draws i ps s).snd.map (fun b => b.position) = ps ∧
      (transformLoop outcomes draws i ps s).fst.trees = s.trees ∧
      (transformLoop outcomes draws i ps s).fst.pendingFade = s.pendingFade ∧
      (transformLoop outcomes draws i ps s).fst.scene =
        s.scene ++ (transformLoop outcomes draws i ps s).snd.map (fun b => b.groupId) ∧
      (∀ b ∈ (transformLoop outcomes draws i ps s).snd,
        b.mesh = defaultMesh ∧ b.type = "fantasy_skyscraper") := by
  intro ps
  induction ps with
  | nil =>
    intro i s
    refine ⟨rfl, by simp [transformLoop], rfl, rfl, rfl, by simp [transformLoop], ?_⟩
    intro b hb
    simp [transformLoop] at hb
  | cons p ps ih =>
    intro i s
    obtain ⟨ihlen, ihbuild, ihpos, ihtrees, ihfade, ihscene, ihmesh⟩ :=
      ih (i + 1) (createSkyscraperAt (outcomes i) (draws i) p s).fst
    have hb : (createSkyscraperAt (outcomes i) (draws i) p s).fst.buildings =
        s.buildings ++ [(createSkyscraperAt (outcomes i) (draws i) p s).snd] := rfl
    have hsc : (createSkyscraperAt (outcomes i) (draws i) p s).fst.scene =
        s.scene ++ [(createSkyscraperAt (outcomes i) (draws i) p s).snd.groupId] := rfl
    have htr : (createSkyscraperAt (outcomes i) (draws i) p s).fst.trees = s.trees := rfl
    have hpf : (createSkyscraperAt (outcomes i) (draws i) p s).fst.pendingFade =
        s.pendingFade := rfl
    have hpos : (createSkyscraperAt (outcomes i) (draws i) p s).snd.position = p := rfl
    have hmesh : (createSkyscraperAt (outcomes i) (draws i) p s).snd.mesh =
        createMeshFromSnippet (outcomes i) := rfl
    have htype : (createSkyscraperAt (outcomes i) (draws i) p s).snd.type =
        "fantasy_skyscraper" := rfl
    simp only [transformLoop]
    refine ⟨?_, ?_, ?_, ?_, ?_, ?_, ?_⟩
    · simp [ihlen]
    · rw [ihbuild, hb]
      simp
    · simp [ihpos, hpos]
    · rw [ihtrees, htr]
    · rw [ihfade, hpf]
    · rw [ihscene, hsc]
      simp
    · intro b hbmem
      simp only [List.mem_cons] at hbmem
      rcases hbmem with rfl | hbmem
      · exact ⟨hmesh.trans (createMeshFromSnippet_of_fails _ (hfail i)), htype⟩
      · exact ihmesh b hbmem

/-- C1: with `M ≥ 1` trees and a snippet whose evaluation always throws,
`transformTreesToSkyscrapers` creates exactly `M` skyscraper entities
carrying the evaluator's fallback mesh — one at each former tree
position, each appended to the buildings collection with its group
attached to the scene (no per-tree failure aborts the loop: the
evaluator absorbs every throw) — the trees stay in place while the
fade-out is in flight, and the fade-out's final tick leaves the trees
collection empty. -/
theorem transformTreesToSkyscrapers_always_throwing (s : EnvState)
    (msgs : Nat → String) (draws : Nat → RandomDraws) (hne : s.trees ≠ []) :
    let r := transformTreesToSkyscrapers
      (fun i => SnippetOutcome.throws (msgs i)) draws s
    r.snd.length = s.trees.length ∧
    r.fst.buildings = s.buildings ++ r.snd ∧
    r.snd.map (fun b => b.position) = s.trees.map (fun t => t.position) ∧
    (∀ b ∈ r.snd, b.mesh = defaultMesh ∧ b.type = "fantasy_skyscraper" ∧
      b.groupId ∈ r.fst.scene) ∧
    r.fst.trees = s.trees ∧
    r.fst.pendingFade = some s.trees ∧
    (fadeOutAndRemoveTreesFinish r.fst).trees = [] := by
  intro r
  have hie : s.trees.isEmpty = false := by
    cases h : s.trees with
    | nil => exact absurd h hne
    | cons a l => rfl
  have hfail : ∀ j, failsValidation (SnippetOutcome.throws (msgs j)) = true :=
    fun _ => rfl
  obtain ⟨hlen, hbuild, hpos, htrees, hfade, hscene, hmesh⟩ :=
    transformLoop_spec (fun i => SnippetOutcome.throws (msgs i)) draws hfail
      (s.trees.map (fun t => t.position)) 0 s
  have hr : r = (fadeOutAndRemoveTreesStart s.trees
      (transformLoop (fun i => SnippetOutcome.throws (msgs i)) draws 0
        (s.trees.map (fun t => t.position)) s).fst,
      (transformLoop (fun i => SnippetOutcome.throws (msgs i)) draws 0
        (s.trees.map (fun t => t.position)) s).snd) := by
    show transformTreesToSkyscrapers _ draws s = _
    unfold transformTreesToSkyscrapers
    rw [hie]
    rfl
  rw [hr]
  refine ⟨by simpa using hlen, by simpa using hbuild, hpos, ?_, htrees, rfl, ?_⟩
  · intro b hb
    obtain ⟨hm, ht⟩ := hmesh b hb
    refine ⟨hm, ht, ?_⟩
    show b.groupId ∈ (transformLoop _ draws 0 _ s).fst.scene
    rw [hscene]
    exact List.mem_append_right _ (List.mem_map_of_mem (fun b => b.groupId) hb)
  · show (fadeOutAndRemoveTreesFinish
      { (transformLoop (fun i => SnippetOutcome.throws (msgs i)) draws 0
          (s.trees.map (fun t => t.position)) s).fst with
        pendingFade := some s.trees }).trees = []
    unfold fadeOutAndRemoveTreesFinish
    rfl

/-- Witness for C1: the two-tree demo state with an always-throwing
snippet. -/
theorem transformTreesToSkyscrapers_always_throwing_witness :
    let r := transformTreesToSkyscrapers
      (fun i => SnippetOutcome.throws ((fun _ => "TypeError: boom") i))
      (fun _ => ⟨0, 0, 0, 0⟩) demoEnvState
    r.snd.length = demoEnvState.trees.length ∧
    r.fst.buildings = demoEnvState.buildings ++ r.snd ∧
    r.snd.map (fun b => b.position) = demoEnvState.trees.map (fun t => t.position) ∧
    (∀ b ∈ r.snd, b.mesh = defaultMesh ∧ b.type = "fantasy_skyscraper" ∧
      b.groupId ∈ r.fst.scene) ∧
    r.fst.trees = demoEnvState.trees ∧
    r.fst.pendingFade = some demoEnvState.trees ∧
    (fadeOutAndRemoveTreesFinish r.fst).trees = [] :=
  transformTreesToSkyscrapers_always_throwing demoEnvState
    (fun _ => "TypeError: boom") (fun _ => ⟨0, 0, 0, 0⟩) (by decide)

/-- Bool equality from equivalence of truth. -/
lemma bool_eq_of_iff {a b : Bool} (h : a = true ↔ b = true) : a = b := by
  cases a <;> cases b <;> simp_all

/-- Membership characterization of `memCollections`. -/
lemma memCollections_iff (s : EnvState) (g : Nat) :
    memCollections s g = true ↔
      ((∃ t ∈ s.trees, t.groupId = g) ∨ (∃ b ∈ s.buildings, b.groupId = g)) := by
  simp [memCollections, List.any_eq_true]

/-- Membership characterization of `attachedScene`. -/
lemma attachedScene_iff (s : EnvState) (g : Nat) :
    attachedScene s g = true ↔ g ∈ s.scene := by
  simp [attachedScene]

lemma atomicStep_refl (s : EnvState) : atomicStep s s := by
  intro g; simp

lemma atomicStep_trans {s₁ s₂ s₃ : EnvState}
    (h12 : atomicStep s₁ s₂) (h23 : atomicStep s₂ s₃) : atomicStep s₁ s₃ := by
  intro g
  have key : ∀ (m1 m2 m3 a1 a2 a3 : Bool),
      ((m1 ≠ m2) ↔ (a1 ≠ a2)) → ((m2 ≠ m3) ↔ (a2 ≠ a3)) →
      ((m1 ≠ m3) ↔ (a1 ≠ a3)) := by decide
  exact key _ _ _ _ _ _ (h12 g) (h23 g)

/-- To couple membership and attachment across a step it suffices that,
at each object, either both bits are unchanged or both flip with the
stated polarities. -/
lemma atomicStep_of_cases (s s' : EnvState)
    (h : ∀ g, (memCollections s g = memCollections s' g ∧
               attachedScene s g = attachedScene s' g) ∨
        (memCollections s g = true ∧ memCollections s' g = false ∧
         attachedScene s g = true ∧ attachedScene s' g = false) ∨
        (memCollections s g = false ∧ memCollections s' g = true ∧
         attachedScene s g = false ∧ attachedScene s' g = true)) :
    atomicStep s s' := by
  intro g
  rcases h g with ⟨h1, h2⟩ | ⟨h1, h2, h3, h4⟩ | ⟨h1, h2, h3, h4⟩
  · simp [h1, h2]
  · simp [h1, h2, h3, h4]
  · simp [h1, h2, h3, h4]

/-- Well-formedness of an environment state, as maintained by every
operation from the empty initial state: the scene holds no duplicate
containers, every tracked or pending group identity is below the
allocation counter, distinct entities own distinct containers, pending
faded trees never share a container with a building and are either still
current or already detached, and every tracked entity is attached. -/
structure EnvWF (s : EnvState) : Prop where
  sceneNodup : s.scene.Nodup
  sceneLt : ∀ g ∈ s.scene, g < s.nextGroupId
  groupsNodup : (s.trees.map (fun t => t.groupId) ++
    s.buildings.map (fun b => b.groupId)).Nodup
  treeLt : ∀ t ∈ s.trees, t.groupId < s.nextGroupId
  buildingLt : ∀ b ∈ s.buildings, b.groupId < s.nextGroupId
  fadeLt : ∀ f, s.pendingFade = some f → ∀ t ∈ f, t.groupId < s.nextGroupId
  fadeBuildingNe : ∀ f, s.pendingFade = some f → ∀ t ∈ f, ∀ b ∈ s.buildings,
    t.groupId ≠ b.groupId
  fadeCurrentOrDetached : ∀ f, s.pendingFade = some f → ∀ t ∈ f,
    t ∈ s.trees ∨ t.groupId ∉ s.scene
  treeAttached : ∀ t ∈ s.trees, t.groupId ∈ s.scene
  buildingAttached : ∀ b ∈ s.buildings, b.groupId ∈ s.scene

lemma envWF_initial : EnvWF initialEnvState := by
  constructor <;> simp [initialEnvState]

/-- A fresh group (at the allocation counter) is neither tracked nor
attached. -/
lemma fresh_not_mem (s : EnvState) (h : EnvWF s) :
    memCollections s s.nextGroupId = false ∧ s.nextGroupId ∉ s.scene := by
  constructor
  · rw [Bool.eq_false_iff]
    intro hmem
    rcases (memCollections_iff s s.nextGroupId).mp hmem with ⟨t, ht, hg⟩ | ⟨b, hb, hg⟩
    · exact absurd hg (Nat.ne_of_lt (h.treeLt t ht))
    · exact absurd hg (Nat.ne_of_lt (h.buildingLt b hb))
  · intro hmem
    exact absurd rfl (Nat.ne_of_lt (h.sceneLt _ hmem))

lemma or_rot (a b c : Bool) : ((a || c) || b) = ((a || b) || c) := by
  cases a <;> cases b <;> cases c <;> rfl

/-- A step that appends one fresh entity (container `s.nextGroupId`) to a
collection and attaches it couples membership and attachment. -/
lemma atomic_of_freshAppend (s s' : EnvState) (h : EnvWF s)
    (hmem : ∀ g, memCollections s' g = (memCollections s g || (s.nextGroupId == g)))
    (hatt : ∀ g, attachedScene s' g = (attachedScene s g || (s.nextGroupId == g))) :
    atomicStep s s' := by
  apply atomicStep_of_cases
  intro g
  by_cases hg : g = s.nextGroupId
  · subst hg
    obtain ⟨hm, hs⟩ := fresh_not_mem s h
    have hatt0 : attachedScene s s.nextGroupId = false := by
      rw [Bool.eq_false_iff]
      intro hx
      exact hs ((attachedScene_iff _ _).mp hx)
    exact Or.inr (Or.inr ⟨hm, by simp [hmem, hm], hatt0, by simp [hatt, hatt0]⟩)
  · have hbg : (s.nextGroupId == g) = false :=
      beq_eq_false_iff_ne.mpr (fun he => hg he.symm)
    exact Or.inl ⟨by simp [hmem, hbg], by simp [hatt, hbg]⟩

lemma addTree_memeq (p : Vec3) (s : EnvState) (g : Nat) :
    memCollections (addTree p s).fst g =
      (memCollections s g || (s.nextGroupId == g)) := by
  have e1 : (addTree p s).fst.trees = s.trees ++ [(addTree p s).snd] := rfl
  have e2 : (addTree p s).fst.buildings = s.buildings := rfl
  have e6 : (addTree p s).snd.groupId = s.nextGroupId := rfl
  simp only [memCollections, e1, e2, List.any_append, List.any_cons, List.any_nil,
    Bool.or_false, e6]
  exact or_rot (s.trees.any fun t => t.groupId == g)
    (s.buildings.any fun b => b.groupId == g) (s.nextGroupId == g)

lemma addTree_atteq (p : Vec3) (s : EnvState) (g : Nat) :
    attachedScene (addTree p s).fst g =
      (attachedScene s g || (s.nextGroupId == g)) := by
  apply bool_eq_of_iff
  have e3 : (addTree p s).fst.scene = s.scene ++ [s.nextGroupId] := rfl
  simp only [attachedScene_iff, e3, List.mem_append, List.mem_singleton,
    Bool.or_eq_true, attachedScene_iff, beq_iff_eq]
  constructor
  · rintro (hx | rfl)
    · exact Or.inl hx
    · exact Or.inr rfl
  · rintro (hx | rfl)
    · exact Or.inl hx
    · exact Or.inr rfl

lemma addTree_wf (p : Vec3) (s : EnvState) (h : EnvWF s) :
    EnvWF (addTree p s).fst := by
  have e1 : (addTree p s).fst.trees = s.trees ++ [(addTree p s).snd] := rfl
  have e2 : (addTree p s).fst.buildings = s.buildings := rfl
  have e3 : (addTree p s).fst.scene = s.scene ++ [s.nextGroupId] := rfl
  have e4 : (addTree p s).fst.nextGroupId = s.nextGroupId + 1 := rfl
  have e5 : (addTree p s).fst.pendingFade = s.pendingFade := rfl
  have e6 : (addTree p s).snd.groupId = s.nextGroupId := rfl
  obtain ⟨hm0, hs0⟩ := fresh_not_mem s h
  constructor
  · rw [e3]
    refine List.nodup_append.mpr ⟨h.sceneNodup, List.nodup_singleton _, ?_⟩
    intro a ha hmem
    rw [List.mem_singleton] at hmem
    subst hmem
    exact hs0 ha
  · rw [e3, e4]
    intro g hg
    rcases List.mem_append.mp hg with hg | hg
    · exact Nat.lt_trans (h.sceneLt g hg) (Nat.lt_succ_self _)
    · rw [List.mem_singleton] at hg
      subst hg
      exact Nat.lt_succ_self _
  · rw [e1, e2, List.map_append]
    have hshape : (s.trees.map (fun t => t.groupId) ++ [(addTree p s).snd].map (fun t => t.groupId)) ++
        s.buildings.map (fun b => b.groupId) =
        s.trees.map (fun t => t.groupId) ++ s.nextGroupId ::
          s.buildings.map (fun b => b.groupId) := by
      simp [e6]
    rw [hshape, List.nodup_middle, List.nodup_cons]
    refine ⟨?_, h.groupsNodup⟩
    intro hmem
    rcases List.mem_append.mp hmem with hmem | hmem
    · obtain ⟨t, ht, hgt⟩ := List.mem_map.mp hmem
      exact absurd hgt (Nat.ne_of_lt (h.treeLt t ht))
    · obtain ⟨b, hb, hgb⟩ := List.mem_map.mp hmem
      exact absurd hgb (Nat.ne_of_lt (h.buildingLt b hb))
  · rw [e1, e4]
    intro t ht
    rcases List.mem_append.mp ht with ht | ht
    · exact Nat.lt_trans (h.treeLt t ht) (Nat.lt_succ_self _)
    · rw [List.mem_singleton] at ht
      subst ht
      rw [e6]
      exact Nat.lt_succ_self _
  · rw [e2, e4]
    intro b hb
    exact Nat.lt_trans (h.buildingLt b hb) (Nat.lt_succ_self _)
  · rw [e5, e4]
    intro f hf t ht
    exact Nat.lt_trans (h.fadeLt f hf t ht) (Nat.lt_succ_self _)
  · rw [e5, e2]
    exact h.fadeBuildingNe
  · rw [e5, e1, e3]
    intro f hf t ht
    rcases h.fadeCurrentOrDetached f hf t ht with hcur | hdet
    · exact Or.inl (List.mem_append_left _ hcur)
    · refine Or.inr ?_
      intro hmem
      rcases List.mem_append.mp hmem with hmem | hmem
      · exact hdet hmem
      · rw [List.mem_singleton] at hmem
        exact absurd hmem (Nat.ne_of_lt (h.fadeLt f hf t ht))
  · rw [e1, e3]
    intro t ht
    rcases List.mem_append.mp ht with ht | ht
    · exact List.mem_append_left _ (h.treeAttached t ht)
    · rw [List.mem_singleton] at ht
      subst ht
      rw [e6]
      exact List.mem_append_right _ (List.mem_singleton.mpr rfl)
  · rw [e2, e3]
    intro b hb
    exact List.mem_append_left _ (h.buildingAttached b hb)

lemma addTree_atomic (p : Vec3) (s : EnvState) (h : EnvWF s) :
    atomicStep s (addTree p s).fst :=
  atomic_of_freshAppend s _ h (addTree_memeq p s) (addTree_atteq p s)

lemma createSkyscraperAt_memeq (o : SnippetOutcome) (rnd : RandomDraws) (p : Vec3)
    (s : EnvState) (g : Nat) :
    memCollections (createSkyscraperAt o rnd p s).fst g =
      (memCollections s g || (s.nextGroupId == g)) := by
  have e1 : (createSkyscraperAt o rnd p s).fst.trees = s.trees := rfl
  have e2 : (createSkyscraperAt o rnd p s).fst.buildings =
      s.buildings ++ [(createSkyscraperAt o rnd p s).snd] := rfl
  have e6 : (createSkyscraperAt o rnd p s).snd.groupId = s.nextGroupId := rfl
  simp only [memCollections, e1, e2, List.any_append, List.any_cons, List.any_nil,
    Bool.or_false, e6]
  exact (Bool.or_assoc _ _ _).symm

lemma createSkyscraperAt_atteq (o : SnippetOutcome) (rnd : RandomDraws) (p : Vec3)
    (s : EnvState) (g : Nat) :
    attachedScene (createSkyscraperAt o rnd p s).fst g =
      (attachedScene s g || (s.nextGroupId == g)) := by
  apply bool_eq_of_iff
  have e3 : (createSkyscraperAt o rnd p s).fst.scene =
      s.scene ++ [s.nextGroupId] := rfl
  simp only [attachedScene_iff, e3, List.mem_append, List.mem_singleton,
    Bool.or_eq_true, attachedScene_iff, beq_iff_eq]
  constructor
  · rintro (hx | rfl)
    · exact Or.inl hx
    · exact Or.inr rfl
  · rintro (hx | rfl)
    · exact Or.inl hx
    · exact Or.inr rfl

lemma createSkyscraperAt_wf (o : SnippetOutcome) (rnd : RandomDraws) (p : Vec3)
    (s : EnvState) (h : EnvWF s) : EnvWF (createSkyscraperAt o rnd p s).fst := by
  have e1 : (createSkyscraperAt o rnd p s).fst.trees = s.trees := rfl
  have e2 : (createSkyscraperAt o rnd p s).fst.buildings =
      s.buildings ++ [(createSkyscraperAt o rnd p s).snd] := rfl
  have e3 : (createSkyscraperAt o rnd p s).fst.scene = s.scene ++ [s.nextGroupId] := rfl
  have e4 : (createSkyscraperAt o rnd p s).fst.nextGroupId = s.nextGroupId + 1 := rfl
  have e5 : (createSkyscraperAt o rnd p s).fst.pendingFade = s.pendingFade := rfl
  have e6 : (createSkyscraperAt o rnd p s).snd.groupId = s.nextGroupId := rfl
  obtain ⟨hm0, hs0⟩ := fresh_not_mem s h
  constructor
  · rw [e3]
    refine List.nodup_append.mpr ⟨h.sceneNodup, List.nodup_singleton _, ?_⟩
    intro a ha hmem
    rw [List.mem_singleton] at hmem
    subst hmem
    exact hs0 ha
  · rw [e3, e4]
    intro g hg
    rcases List.mem_append.mp hg with hg | hg
    · exact Nat.lt_trans (h.sceneLt g hg) (Nat.lt_succ_self _)
    · rw [List.mem_singleton] at hg
      subst hg
      exact Nat.lt_succ_self _
  · rw [e1, e2, List.map_append]
    have hshape : s.trees.map (fun t => t.groupId) ++
        (s.buildings.map (fun b => b.groupId) ++
          [(createSkyscraperAt o rnd p s).snd].map (fun b => b.groupId)) =
        (s.trees.map (fun t => t.groupId) ++ s.buildings.map (fun b => b.groupId)) ++
          [s.nextGroupId] := by
      simp [e6]
    rw [hshape]
    refine List.nodup_append.mpr ⟨h.groupsNodup, List.nodup_singleton _, ?_⟩
    intro a ha hmem
    rw [List.mem_singleton] at hmem
    subst hmem
    rcases List.mem_append.mp ha with ha | ha
    · obtain ⟨t, ht, hgt⟩ := List.mem_map.mp ha
      exact absurd hgt (Nat.ne_of_lt (h.treeLt t ht))
    · obtain ⟨b, hb, hgb⟩ := List.mem_map.mp ha
      exact absurd hgb (Nat.ne_of_lt (h.buildingLt b hb))
  · rw [e1, e4]
    intro t ht
    exact Nat.lt_trans (h.treeLt t ht) (Nat.lt_succ_self _)
  · rw [e2, e4]
    intro b hb
    rcases List.mem_append.mp hb with hb | hb
    · exact Nat.lt_trans (h.buildingLt b hb) (Nat.lt_succ_self _)
    · rw [List.mem_singleton] at hb
      subst hb
      rw [e6]
      exact Nat.lt_succ_self _
  · rw [e5, e4]
    intro f hf t ht
    exact Nat.lt_trans (h.fadeLt f hf t ht) (Nat.lt_succ_self _)
  · rw [e5, e2]
    intro f hf t ht b hb
    rcases List.mem_append.mp hb with hb | hb
    · exact h.fadeBuildingNe f hf t ht b hb
    · rw [List.mem_singleton] at hb
      subst hb
      rw [e6]
      exact Nat.ne_of_lt (h.fadeLt f hf t ht)
  · rw [e5, e1, e3]
    intro f hf t ht
    rcases h.fadeCurrentOrDetached f hf t ht with hcur | hdet
    · exact Or.inl hcur
    · refine Or.inr ?_
      intro hmem
      rcases List.mem_append.mp hmem with hmem | hmem
      · exact hdet hmem
      · rw [List.mem_singleton] at hmem
        exact absurd hmem (Nat.ne_of_lt (h.fadeLt f hf t ht))
  · rw [e1, e3]
    intro t ht
    exact List.mem_append_left _ (h.treeAttached t ht)
  · rw [e2, e3]
    intro b hb
    rcases List.mem_append.mp hb with hb | hb
    · exact List.mem_append_left _ (h.buildingAttached b hb)
    · rw [List.mem_singleton] at hb
      subst hb
      rw [e6]
      exact List.mem_append_right _ (List.mem_singleton.mpr rfl)

lemma createSkyscraperAt_atomic (o : SnippetOutcome) (rnd : RandomDraws) (p : Vec3)
    (s : EnvState) (h : EnvWF s) : atomicStep s (createSkyscraperAt o rnd p s).fst :=
  atomic_of_freshAppend s _ h (createSkyscraperAt_memeq o rnd p s)
    (createSkyscraperAt_atteq o rnd p s)

/-- Starting a fade-out (capturing the current trees) changes neither
collections nor scene, and preserves well-formedness. -/
lemma fadeStart_wf_atomic (s : EnvState) (h : EnvWF s) :
    EnvWF (fadeOutAndRemoveTreesStart s.trees s) ∧
    atomicStep s (fadeOutAndRemoveTreesStart s.trees s) := by
  constructor
  · constructor
    · exact h.sceneNodup
    · exact h.sceneLt
    · exact h.groupsNodup
    · exact h.treeLt
    · exact h.buildingLt
    · intro f hf t ht
      obtain rfl : s.trees = f := by injection hf
      exact h.treeLt t ht
    · intro f hf t ht b hb
      obtain rfl : s.trees = f := by injection hf
      intro he
      have hnodup := h.groupsNodup
      rw [List.nodup_append] at hnodup
      exact hnodup.2.2 (List.mem_map_of_mem (fun t => t.groupId) ht)
        (he ▸ List.mem_map_of_mem (fun b => b.groupId) hb)
    · intro f hf t ht
      obtain rfl : s.trees = f := by injection hf
      exact Or.inl ht
    · exact h.treeAttached
    · exact h.buildingAttached
  · apply atomicStep_of_cases
    intro g
    exact Or.inl ⟨rfl, rfl⟩

/-- Membership after detaching a batch of containers (`scene.remove` in a
loop): survives exactly the elements not in the batch. -/
lemma mem_foldl_erase {α : Type} (f : α → Nat) :
    ∀ (l : List α) (sc : List Nat), sc.Nodup → ∀ g : Nat,
      (g ∈ l.foldl (fun a x => a.erase (f x)) sc ↔ (g ∈ sc ∧ g ∉ l.map f)) := by
  intro l
  induction l with
  | nil => intro sc _ g; simp
  | cons x l ih =>
    intro sc hnodup g
    simp only [List.foldl_cons, List.map_cons, List.mem_cons]
    rw [ih (sc.erase (f x)) (hnodup.erase (f x)) g, hnodup.mem_erase_iff]
    constructor
    · rintro ⟨⟨hne, hmem⟩, hnotin⟩
      exact ⟨hmem, fun hc => hc.elim (fun he => hne he) hnotin⟩
    · rintro ⟨hmem, hnotin⟩
      exact ⟨⟨fun he => hnotin (Or.inl he), hmem⟩, fun hc => hnotin (Or.inr hc)⟩

/-- Batch detaching preserves scene Nodup. -/
lemma nodup_foldl_erase {α : Type} (f : α → Nat) :
    ∀ (l : List α) (sc : List Nat), sc.Nodup →
      (l.foldl (fun a x => a.erase (f x)) sc).Nodup := by
  intro l
  induction l with
  | nil => intro sc h; simpa using h
  | cons x l ih =>
    intro sc h
    simpa using ih (sc.erase (f x)) (h.erase (f x))

/-- The container of the first tree matching an id occurs in no other
tracked entity (from the global distinctness of containers). -/
lemma split_group_unique (s : EnvState) (h : EnvWF s)
    (pre post : List TreeEntity) (t : TreeEntity)
    (hsplit : s.trees = pre ++ t :: post) :
    t.groupId ∉ (pre ++ post).map (fun u => u.groupId) ∧
    (∀ b ∈ s.buildings, t.groupId ≠ b.groupId) := by
  have hnodup := h.groupsNodup
  rw [hsplit, List.map_append, List.map_cons] at hnodup
  have hmid : (pre.map (fun u => u.groupId) ++ t.groupId :: post.map (fun u => u.groupId)) ++
      s.buildings.map (fun b => b.groupId) =
      pre.map (fun u => u.groupId) ++ t.groupId ::
        (post.map (fun u => u.groupId) ++ s.buildings.map (fun b => b.groupId)) := by
    simp
  rw [hmid, List.nodup_middle, List.nodup_cons] at hnodup
  obtain ⟨hnotin, _⟩ := hnodup
  constructor
  · rw [List.map_append]
    intro hc
    rcases List.mem_append.mp hc with hc | hc
    · exact hnotin (List.mem_append_left _ hc)
    · exact hnotin (List.mem_append_right _ (List.mem_append_left _ hc))
  · intro b hb he
    exact hnotin (List.mem_append_right _ (List.mem_append_right _
      (he ▸ List.mem_map_of_mem (fun b => b.groupId) hb)))

lemma removeTree_wf_atomic (treeId : String) (s : EnvState) (h : EnvWF s) :
    EnvWF (removeTree treeId s).fst ∧ atomicStep s (removeTree treeId s).fst := by
  cases hfind : s.trees.find? (fun t => t.id == treeId) with
  | none =>
    have : (removeTree treeId s).fst = s := by
      unfold removeTree
      rw [hfind]
    rw [this]
    exact ⟨h, atomicStep_refl s⟩
  | some t =>
    obtain ⟨pre, post, hsplit, _, herase⟩ :=
      find?_split (fun u => u.id == treeId) s.trees t hfind
    obtain ⟨hgunique, hgbuild⟩ := split_group_unique s h pre post t hsplit
    have ht_mem : t ∈ s.trees := by
      rw [hsplit]
      exact List.mem_append_right _ (List.mem_cons_self t post)
    have e1 : (removeTree treeId s).fst.trees = pre ++ post := by
      unfold removeTree
      rw [hfind]
      exact herase
    have e2 : (removeTree treeId s).fst.buildings = s.buildings := by
      unfold removeTree
      rw [hfind]
    have e3 : (removeTree treeId s).fst.scene = s.scene.erase t.groupId := by
      unfold removeTree
      rw [hfind]
    have e4 : (removeTree treeId s).fst.nextGroupId = s.nextGroupId := by
      unfold removeTree
      rw [hfind]
    have e5 : (removeTree treeId s).fst.pendingFade = s.pendingFade := by
      unfold removeTree
      rw [hfind]
    have hsub : (pre ++ post).Sublist s.trees := by
      rw [hsplit]
      exact List.Sublist.append_left (List.sublist_cons_self t post) pre
    constructor
    · constructor
      · rw [e3]
        exact h.sceneNodup.erase t.groupId
      · rw [e3, e4]
        intro g hg
        exact h.sceneLt g (List.mem_of_mem_erase hg)
      · rw [e1, e2]
        refine List.Sublist.nodup ?_ h.groupsNodup
        exact List.Sublist.append (hsub.map (fun u => u.groupId))
          (List.Sublist.refl _)
      · rw [e1, e4]
        intro u hu
        exact h.treeLt u (hsub.mem hu)
      · rw [e2, e4]
        exact h.buildingLt
      · rw [e5, e4]
        exact h.fadeLt
      · rw [e5, e2]
        exact h.fadeBuildingNe
      · rw [e5, e1, e3]
        intro f hf u hu
        rcases h.fadeCurrentOrDetached f hf u hu with hcur | hdet
        · rw [hsplit] at hcur
          rcases List.mem_append.mp hcur with hc | hc
          · exact Or.inl (List.mem_append_left _ hc)
          · rcases List.mem_cons.mp hc with rfl | hc
            · exact Or.inr (h.sceneNodup.not_mem_erase)
            · exact Or.inl (List.mem_append_right _ hc)
        · exact Or.inr (fun hc => hdet (List.mem_of_mem_erase hc))
      · rw [e1, e3]
        intro u hu
        have hne : u.groupId ≠ t.groupId := by
          intro he
          exact hgunique (he ▸ List.mem_map_of_mem (fun u => u.groupId) hu)
        rw [h.sceneNodup.mem_erase_iff]
        exact ⟨hne, h.treeAttached u (hsub.mem hu)⟩
      · rw [e2, e3]
        intro b hb
        rw [h.sceneNodup.mem_erase_iff]
        exact ⟨fun he => hgbuild b hb he.symm, h.buildingAttached b hb⟩
    · apply atomicStep_of_cases
      intro g
      by_cases hg : g = t.groupId
      · subst hg
        refine Or.inr (Or.inl ⟨?_, ?_, ?_, ?_⟩)
        · exact (memCollections_iff s _).mpr (Or.inl ⟨t, ht_mem, rfl⟩)
        · rw [Bool.eq_false_iff]
          intro hc
          rcases (memCollections_iff _ _).mp hc with ⟨u, hu, hgu⟩ | ⟨b, hb, hgb⟩
          · rw [e1] at hu
            exact hgunique (hgu ▸ List.mem_map_of_mem (fun u => u.groupId) hu)
          · rw [e2] at hb
            exact hgbuild b hb hgb.symm
        · exact (attachedScene_iff s _).mpr (h.treeAttached t ht_mem)
        · rw [Bool.eq_false_iff]
          intro hc
          have := (attachedScene_iff _ _).mp hc
          rw [e3] at this
          exact h.sceneNodup.not_mem_erase this
      · refine Or.inl ⟨?_, ?_⟩
        · apply bool_eq_of_iff
          rw [memCollections_iff, memCollections_iff, e1, e2]
          constructor
          · rintro (⟨u, hu, hgu⟩ | hb)
            · refine Or.inl ⟨u, ?_, hgu⟩
              rw [hsplit] at hu
              rcases List.mem_append.mp hu with hc | hc
              · exact List.mem_append_left _ hc
              · rcases List.mem_cons.mp hc with rfl | hc
                · exact absurd hgu (fun he => hg he.symm)
                · exact List.mem_append_right _ hc
            · exact Or.inr hb
          · rintro (⟨u, hu, hgu⟩ | hb)
            · exact Or.inl ⟨u, hsub.mem hu, hgu⟩
            · exact Or.inr hb
        · apply bool_eq_of_iff
          rw [attachedScene_iff, attachedScene_iff, e3,
            h.sceneNodup.mem_erase_iff]
          constructor
          · intro hx
            exact ⟨hg, hx⟩
          · rintro ⟨_, hx⟩
            exact hx

lemma clearTrees_wf_atomic (s : EnvState) (h : EnvWF s) :
    EnvWF (clearTrees s) ∧ atomicStep s (clearTrees s) := by
  have e1 : (clearTrees s).trees = [] := rfl
  have e2 : (clearTrees s).buildings = s.buildings := rfl
  have e3 : (clearTrees s).scene =
      s.trees.foldl (fun sc t => sc.erase t.groupId) s.scene := rfl
  have e4 : (clearTrees s).nextGroupId = s.nextGroupId := rfl
  have e5 : (clearTrees s).pendingFade = s.pendingFade := rfl
  have hmem3 := mem_foldl_erase (fun t : TreeEntity => t.groupId) s.trees s.scene h.sceneNodup
  have hdisj : ∀ b ∈ s.buildings, ∀ t ∈ s.trees, b.groupId ≠ t.groupId := by
    intro b hb t ht he
    have hnodup := h.groupsNodup
    rw [List.nodup_append] at hnodup
    exact hnodup.2.2 (List.mem_map_of_mem (fun t => t.groupId) ht)
      (he ▸ List.mem_map_of_mem (fun b => b.groupId) hb)
  constructor
  · constructor
    · rw [e3]
      exact nodup_foldl_erase _ s.trees s.scene h.sceneNodup
    · rw [e3, e4]
      intro g hg
      exact h.sceneLt g ((hmem3 g).mp hg).1
    · rw [e1, e2]
      simp only [List.map_nil, List.nil_append]
      exact List.Sublist.nodup (List.sublist_append_right _ _) h.groupsNodup
    · rw [e1]
      intro t ht
      simp at ht
    · rw [e2, e4]
      exact h.buildingLt
    · rw [e5, e4]
      exact h.fadeLt
    · rw [e5, e2]
      exact h.fadeBuildingNe
    · rw [e5, e1, e3]
      intro f hf t ht
      refine Or.inr ?_
      intro hc
      obtain ⟨hsc, hnotin⟩ := (hmem3 t.groupId).mp hc
      rcases h.fadeCurrentOrDetached f hf t ht with hcur | hdet
      · exact hnotin (List.mem_map_of_mem (fun t => t.groupId) hcur)
      · exact hdet hsc
    · rw [e1]
      intro t ht
      simp at ht
    · rw [e2, e3]
      intro b hb
      refine (hmem3 b.groupId).mpr ⟨h.buildingAttached b hb, ?_⟩
      intro hc
      obtain ⟨t, ht, hgt⟩ := List.mem_map.mp hc
      exact hdisj b hb t ht hgt.symm
  · apply atomicStep_of_cases
    intro g
    by_cases hg : ∃ t ∈ s.trees, t.groupId = g
    · obtain ⟨t, ht, rfl⟩ := hg
      refine Or.inr (Or.inl ⟨?_, ?_, ?_, ?_⟩)
      · exact (memCollections_iff s _).mpr (Or.inl ⟨t, ht, rfl⟩)
      · rw [Bool.eq_false_iff]
        intro hc
        rcases (memCollections_iff _ _).mp hc with ⟨u, hu, _⟩ | ⟨b, hb, hgb⟩
        · rw [e1] at hu
          simp at hu
        · rw [e2] at hb
          exact hdisj b hb t ht hgb
      · exact (attachedScene_iff s _).mpr (h.treeAttached t ht)
      · rw [Bool.eq_false_iff]
        intro hc
        have := (attachedScene_iff _ _).mp hc
        rw [e3] at this
        exact ((hmem3 t.groupId).mp this).2
          (List.mem_map_of_mem (fun t => t.groupId) ht)
    · refine Or.inl ⟨?_, ?_⟩
      · apply bool_eq_of_iff
        rw [memCollections_iff, memCollections_iff, e1, e2]
        constructor
        · rintro (⟨u, hu, hgu⟩ | hb)
          · exact absurd ⟨u, hu, hgu⟩ hg
          · exact Or.inr hb
        · rintro (⟨u, hu, _⟩ | hb)
          · simp at hu
          · exact Or.inr hb
      · apply bool_eq_of_iff
        rw [attachedScene_iff, attachedScene_iff, e3, hmem3 g]
        constructor
        · intro hx
          refine ⟨hx, ?_⟩
          intro hc
          obtain ⟨t, ht, hgt⟩ := List.mem_map.mp hc
          exact hg ⟨t, ht, hgt⟩
        · intro hx
          exact hx.1

lemma fadeFinish_wf (s : EnvState) (h : EnvWF s) :
    EnvWF (fadeOutAndRemoveTreesFinish s) := by
  cases hpf : s.pendingFade with
  | none =>
    have : fadeOutAndRemoveTreesFinish s = s := by
      unfold fadeOutAndRemoveTreesFinish
      rw [hpf]
    rw [this]
    exact h
  | some f =>
    have e1 : (fadeOutAndRemoveTreesFinish s).trees = [] := by
      unfold fadeOutAndRemoveTreesFinish
      rw [hpf]
    have e2 : (fadeOutAndRemoveTreesFinish s).buildings = s.buildings := by
      unfold fadeOutAndRemoveTreesFinish
      rw [hpf]
    have e3 : (fadeOutAndRemoveTreesFinish s).scene =
        f.foldl (fun sc t => sc.erase t.groupId) s.scene := by
      unfold fadeOutAndRemoveTreesFinish
      rw [hpf]
    have e4 : (fadeOutAndRemoveTreesFinish s).nextGroupId = s.nextGroupId := by
      unfold fadeOutAndRemoveTreesFinish
      rw [hpf]
    have e5 : (fadeOutAndRemoveTreesFinish s).pendingFade = none := by
      unfold fadeOutAndRemoveTreesFinish
      rw [hpf]
    have hmem3 := mem_foldl_erase (fun t : TreeEntity => t.groupId) f s.scene h.sceneNodup
    constructor
    · rw [e3]
      exact nodup_foldl_erase _ f s.scene h.sceneNodup
    · rw [e3, e4]
      intro g hg
      exact h.sceneLt g ((hmem3 g).mp hg).1
    · rw [e1, e2]
      simp only [List.map_nil, List.nil_append]
      exact List.Sublist.nodup (List.sublist_append_right _ _) h.groupsNodup
    · rw [e1]
      intro t ht
      simp at ht
    · rw [e2, e4]
      exact h.buildingLt
    · rw [e5]
      intro f' hf'
      exact absurd hf' (by simp)
    · rw [e5]
      intro f' hf'
      exact absurd hf' (by simp)
    · rw [e5]
      intro f' hf'
      exact absurd hf' (by simp)
    · rw [e1]
      intro t ht
      simp at ht
    · rw [e2, e3]
      intro b hb
      refine (hmem3 b.groupId).mpr ⟨h.buildingAttached b hb, ?_⟩
      intro hc
      obtain ⟨t, ht, hgt⟩ := List.mem_map.mp hc
      exact h.fadeBuildingNe f hpf t ht b hb hgt

lemma fadeFinish_atomic (s : EnvState) (h : EnvWF s)
    (hsub : ∀ f, s.pendingFade = some f → ∀ t ∈ s.trees, t ∈ f) :
    atomicStep s (fadeOutAndRemoveTreesFinish s) := by
  cases hpf : s.pendingFade with
  | none =>
    have : fadeOutAndRemoveTreesFinish s = s := by
      unfold fadeOutAndRemoveTreesFinish
      rw [hpf]
    rw [this]
    exact atomicStep_refl s
  | some f =>
    have e1 : (fadeOutAndRemoveTreesFinish s).trees = [] := by
      unfold fadeOutAndRemoveTreesFinish
      rw [hpf]
    have e2 : (fadeOutAndRemoveTreesFinish s).buildings = s.buildings := by
      unfold fadeOutAndRemoveTreesFinish
      rw [hpf]
    have e3 : (fadeOutAndRemoveTreesFinish s).scene =
        f.foldl (fun sc t => sc.erase t.groupId) s.scene := by
      unfold fadeOutAndRemoveTreesFinish
      rw [hpf]
    have hmem3 := mem_foldl_erase (fun t : TreeEntity => t.groupId) f s.scene h.sceneNodup
    have hdisj : ∀ b ∈ s.buildings, ∀ t ∈ s.trees, b.groupId ≠ t.groupId := by
      intro b hb t ht he
      have hnodup := h.groupsNodup
      rw [List.nodup_append] at hnodup
      exact hnodup.2.2 (List.mem_map_of_mem (fun t => t.groupId) ht)
        (he ▸ List.mem_map_of_mem (fun b => b.groupId) hb)
    apply atomicStep_of_cases
    intro g
    by_cases hg : ∃ t ∈ s.trees, t.groupId = g
    · obtain ⟨t, ht, rfl⟩ := hg
      refine Or.inr (Or.inl ⟨?_, ?_, ?_, ?_⟩)
      · exact (memCollections_iff s _).mpr (Or.inl ⟨t, ht, rfl⟩)
      · rw [Bool.eq_false_iff]
        intro hc
        rcases (memCollections_iff _ _).mp hc with ⟨u, hu, _⟩ | ⟨b, hb, hgb⟩
        · rw [e1] at hu
          simp at hu
        · rw [e2] at hb
          exact hdisj b hb t ht hgb
      · exact (attachedScene_iff s _).mpr (h.treeAttached t ht)
      · rw [Bool.eq_false_iff]
        intro hc
        have := (attachedScene_iff _ _).mp hc
        rw [e3] at this
        exact ((hmem3 t.groupId).mp this).2
          (List.mem_map_of_mem (fun t => t.groupId) (hsub f hpf t ht))
    · refine Or.inl ⟨?_, ?_⟩
      · apply bool_eq_of_iff
        rw [memCollections_iff, memCollections_iff, e1, e2]
        constructor
        · rintro (⟨u, hu, hgu⟩ | hb)
          · exact absurd ⟨u, hu, hgu⟩ hg
          · exact Or.inr hb
        · rintro (⟨u, hu, _⟩ | hb)
          · simp at hu
          · exact Or.inr hb
      · apply bool_eq_of_iff
        rw [attachedScene_iff, attachedScene_iff, e3, hmem3 g]
        constructor
        · intro hx
          refine ⟨hx, ?_⟩
          intro hc
          obtain ⟨t, ht, hgt⟩ := List.mem_map.mp hc
          rcases h.fadeCurrentOrDetached f hpf t ht with hcur | hdet
          · exact hg ⟨t, hcur, hgt⟩
          · exact hdet (hgt ▸ hx)
        · intro hx
          exact hx.1

/-- The per-tree loop keeps the trees collection untouched (any snippet
behaviour). -/
lemma transformLoop_trees (outcomes : Nat → SnippetOutcome) (draws : Nat → RandomDraws) :
    ∀ (ps : List Vec3) (i : Nat) (s : EnvState),
      (transformLoop outcomes draws i ps s).fst.trees = s.trees := by
  intro ps
  induction ps with
  | nil => intro i s; rfl
  | cons p ps ih =>
    intro i s
    simp only [transformLoop]
    rw [ih (i + 1) (createSkyscraperAt (outcomes i) (draws i) p s).fst]
    rfl

lemma transformLoop_wf_atomic (outcomes : Nat → SnippetOutcome) (draws : Nat → RandomDraws) :
    ∀ (ps : List Vec3) (i : Nat) (s : EnvState), EnvWF s →
      EnvWF (transformLoop outcomes draws i ps s).fst ∧
      atomicStep s (transformLoop outcomes draws i ps s).fst := by
  intro ps
  induction ps with
  | nil => intro i s h; exact ⟨h, atomicStep_refl s⟩
  | cons p ps ih =>
    intro i s h
    have h1 := createSkyscraperAt_wf (outcomes i) (draws i) p s h
    have h1a := createSkyscraperAt_atomic (outcomes i) (draws i) p s h
    obtain ⟨h2, h2a⟩ := ih (i + 1) (createSkyscraperAt (outcomes i) (draws i) p s).fst h1
    constructor
    · simpa [transformLoop] using h2
    · have : atomicStep s
          (transformLoop outcomes draws (i + 1) ps
            (createSkyscraperAt (outcomes i) (draws i) p s).fst).fst :=
        atomicStep_trans h1a h2a
      simpa [transformLoop] using this

lemma transform_wf_atomic (outcomes : Nat → SnippetOutcome) (draws : Nat → RandomDraws)
    (s : EnvState) (h : EnvWF s) :
    EnvWF (transformTreesToSkyscrapers outcomes draws s).fst ∧
    atomicStep s (transformTreesToSkyscrapers outcomes draws s).fst := by
  by_cases he : s.trees.isEmpty = true
  · have : (transformTreesToSkyscrapers outcomes draws s).fst = s := by
      unfold transformTreesToSkyscrapers
      rw [he]
      rfl
    rw [this]
    exact ⟨h, atomicStep_refl s⟩
  · have he' : s.trees.isEmpty = false := by
      cases hx : s.trees.isEmpty
      · rfl
      · exact absurd hx he
    have hfst : (transformTreesToSkyscrapers outcomes draws s).fst =
        fadeOutAndRemoveTreesStart s.trees
          (transformLoop outcomes draws 0 (s.trees.map (fun t => t.position)) s).fst := by
      unfold transformTreesToSkyscrapers
      rw [he']
      rfl
    obtain ⟨hwf1, hat1⟩ :=
      transformLoop_wf_atomic outcomes draws (s.trees.map (fun t => t.position)) 0 s h
    have htr := transformLoop_trees outcomes draws (s.trees.map (fun t => t.position)) 0 s
    have hre : fadeOutAndRemoveTreesStart s.trees
        (transformLoop outcomes draws 0 (s.trees.map (fun t => t.position)) s).fst =
        fadeOutAndRemoveTreesStart
          (transformLoop outcomes draws 0 (s.trees.map (fun t => t.position)) s).fst.trees
          (transformLoop outcomes draws 0 (s.trees.map (fun t => t.position)) s).fst := by
      rw [htr]
    obtain ⟨hwf2, hat2⟩ := fadeStart_wf_atomic
      (transformLoop outcomes draws 0 (s.trees.map (fun t => t.position)) s).fst hwf1
    rw [hfst, hre]
    exact ⟨hwf2, atomicStep_trans hat1 hat2⟩

lemma spawnTreeType_wf_atomic (positions : Nat → Vec3) (count : Nat)
    (s : EnvState) (h : EnvWF s) :
    EnvWF (spawnTreeType positions count s) ∧
    atomicStep s (spawnTreeType positions count s) := by
  have hfold : ∀ (l : List Nat) (s₀ : EnvState), EnvWF s₀ →
      EnvWF (l.foldl (fun acc i => (addTree (positions i) acc).fst) s₀) ∧
      atomicStep s₀ (l.foldl (fun acc i => (addTree (positions i) acc).fst) s₀) := by
    intro l
    induction l with
    | nil => intro s₀ h₀; exact ⟨h₀, atomicStep_refl s₀⟩
    | cons i l ih =>
      intro s₀ h₀
      have h1 := addTree_wf (positions i) s₀ h₀
      have h1a := addTree_atomic (positions i) s₀ h₀
      obtain ⟨h2, h2a⟩ := ih (addTree (positions i) s₀).fst h1
      exact ⟨by simpa using h2, atomicStep_trans h1a (by simpa using h2a)⟩
  obtain ⟨hwf1, hat1⟩ := clearTrees_wf_atomic s h
  obtain ⟨hwf2, hat2⟩ := hfold (List.range count) (clearTrees s) hwf1
  exact ⟨hwf2, atomicStep_trans hat1 hat2⟩

lemma applyEnvOp_wf (op : EnvOp) (s : EnvState) (h : EnvWF s) :
    EnvWF (applyEnvOp op s) := by
  cases op with
  | addTree p => exact addTree_wf p s h
  | removeTree id => exact (removeTree_wf_atomic id s h).1
  | clearTrees => exact (clearTrees_wf_atomic s h).1
  | spawnTreeType ps n => exact (spawnTreeType_wf_atomic ps n s h).1
  | transformTreesToSkyscrapers oc dr => exact (transform_wf_atomic oc dr s h).1
  | fadeOutAndRemoveTreesFinish => exact fadeFinish_wf s h

lemma applyEnvOps_wf (ops : List EnvOp) : EnvWF (applyEnvOps ops) := by
  have hfold : ∀ (l : List EnvOp) (s : EnvState), EnvWF s →
      EnvWF (l.foldl (fun s op => applyEnvOp op s) s) := by
    intro l
    induction l with
    | nil => intro s h; exact h
    | cons op l ih =>
      intro s h
      exact ih (applyEnvOp op s) (applyEnvOp_wf op s h)
  exact hfold ops initialEnvState envWF_initial

/-- C6 (amended): across every operation sequence, every entity present
in a collection has its container attached to the scene; and every
operation applied in a reachable state changes collection membership and
attachment together — provided that, when the operation is the fade-out's
final tick, every tree then in the collection belongs to the pending fade
set (i.e. no tree was added during the in-flight fade-out; the final tick
clears the whole collection, so such a tree would lose membership while
staying attached). -/
theorem envManager_membership_attachment (ops : List EnvOp) (op : EnvOp)
    (hproviso : op = EnvOp.fadeOutAndRemoveTreesFinish →
      ∀ f, (applyEnvOps ops).pendingFade = some f →
        ∀ t ∈ (applyEnvOps ops).trees, t ∈ f) :
    (∀ g, memCollections (applyEnvOps ops) g = true →
      attachedScene (applyEnvOps ops) g = true) ∧
    atomicStep (applyEnvOps ops) (applyEnvOp op (applyEnvOps ops)) := by
  have hwf := applyEnvOps_wf ops
  constructor
  · intro g hmem
    rcases (memCollections_iff _ g).mp hmem with ⟨t, ht, hgt⟩ | ⟨b, hb, hgb⟩
    · exact (attachedScene_iff _ g).mpr (hgt ▸ hwf.treeAttached t ht)
    · exact (attachedScene_iff _ g).mpr (hgb ▸ hwf.buildingAttached b hb)
  · cases op with
    | addTree p => exact addTree_atomic p _ hwf
    | removeTree id => exact (removeTree_wf_atomic id _ hwf).2
    | clearTrees => exact (clearTrees_wf_atomic _ hwf).2
    | spawnTreeType ps n => exact (spawnTreeType_wf_atomic ps n _ hwf).2
    | transformTreesToSkyscrapers oc dr => exact (transform_wf_atomic oc dr _ hwf).2
    | fadeOutAndRemoveTreesFinish => exact fadeFinish_atomic _ hwf (hproviso rfl)

/-- Witness for the amended C6: one tree spawned, then `clearTrees`
applied (the proviso is vacuous for a non-fade-tick operation). -/
theorem envManager_membership_attachment_witness :
    (∀ g, memCollections (applyEnvOps [EnvOp.addTree ⟨1, 0, 2⟩]) g = true →
      attachedScene (applyEnvOps [EnvOp.addTree ⟨1, 0, 2⟩]) g = true) ∧
    atomicStep (applyEnvOps [EnvOp.addTree ⟨1, 0, 2⟩])
      (applyEnvOp EnvOp.clearTrees (applyEnvOps [EnvOp.addTree ⟨1, 0, 2⟩])) :=
  envManager_membership_attachment [EnvOp.addTree ⟨1, 0, 2⟩] EnvOp.clearTrees
    (fun hc => EnvOp.noConfusion hc)

/-- The operation sequence refuting the unrestricted atomicity claim: a
tree, a transform (which schedules the fade-out of that tree), and a
second tree added while the fade-out is in flight. -/
def c6CounterOps : List EnvOp :=
  [EnvOp.addTree ⟨1, 0, 2⟩,
   EnvOp.transformTreesToSkyscrapers (fun _ => SnippetOutcome.throws "boom")
     (fun _ => ⟨0, 0, 0, 0⟩),
   EnvOp.addTree ⟨3, 0, 4⟩]

/-- C6 (counterexample): after `c6CounterOps` the fade-out's final tick
clears the whole trees collection, so the mid-fade tree (container 2)
loses collection membership while its group stays attached to the scene —
membership and attachment do not change together in that operation. -/
theorem envManager_membership_attachment_counterexample :
    ¬ atomicStep (applyEnvOps c6CounterOps)
        (applyEnvOp EnvOp.fadeOutAndRemoveTreesFinish (applyEnvOps c6CounterOps)) := by
  intro h
  have h2 := h 2
  revert h2
  decide
